import Mathlib

set_option maxHeartbeats 1000000
set_option linter.unreachableTactic false
set_option linter.unusedTactic false

namespace Le0

/- ──────────────────────────────────────────────────────────────────────
Frame reader (le0.py, IRCBot.run): the code accumulates raw chunks in a
carry buffer and splits on CRLF, keeping the trailing fragment:
    buffer += self.irc.recv(2048).decode(...)
    lines = buffer.split("\r\n")
    buffer = lines.pop()
Python strings are modelled as `List Char`.
────────────────────────────────────────────────────────────────────── -/

/-- Python `s.split("\r\n")`, split into the list of complete
CRLF-terminated lines (everything before the last delimiter, delimiter
occurrences scanned left to right) and the trailing fragment after the
last delimiter.  `buffer.split("\r\n")` returns the lines with the
fragment appended; `lines.pop()` separates the two, so we model the
split directly as a pair. -/
def splitCRLF : List Char → List (List Char) × List Char
  | [] => ([], [])
  | '\r' :: '\n' :: rest =>
    ([] :: (splitCRLF rest).1, (splitCRLF rest).2)
  | c :: rest =>
    match splitCRLF rest with
    | ([], r) => ([], c :: r)
    | (l :: ls, r) => ((c :: l) :: ls, r)

/-- Concatenate lines back, terminating each with CRLF. -/
def joinCRLF (ls : List (List Char)) : List Char :=
  (ls.map (fun l => l ++ ['\r', '\n'])).flatten

/-- Does the string contain the two-character delimiter "\r\n"? -/
def hasCRLF : List Char → Bool
  | [] => false
  | '\r' :: '\n' :: _ => true
  | _ :: rest => hasCRLF rest

/-- One reader step per received chunk, then recurse: append the chunk to
the carry buffer, split on CRLF, yield the complete lines and carry the
fragment to the next read (le0.py lines 1135-1141). -/
def readerRun (buf : List Char) : List (List Char) → List (List Char) × List Char
  | [] => ([], buf)
  | ch :: chunks =>
    ((splitCRLF (buf ++ ch)).1 ++ (readerRun (splitCRLF (buf ++ ch)).2 chunks).1,
     (readerRun (splitCRLF (buf ++ ch)).2 chunks).2)

/- ──────────────────────────────────────────────────────────────────────
String utilities mirroring the Python primitives used by le0.py.
────────────────────────────────────────────────────────────────────── -/

/-- Python `str.lower()` (ASCII case folding; the protocol traffic in the
claims is ASCII). -/
def lowerStr (s : List Char) : List Char := s.map Char.toLower

/-- Whitespace recognised by Python `str.split()` / `str.strip()` (ASCII
range). -/
def isPyWs (c : Char) : Bool :=
  c == ' ' || c == '\t' || c == '\n' || c == '\r' || c == '\x0b' || c == '\x0c'

/-- Python `str.strip()`: drop whitespace from both ends. -/
def pyStrip (t : List Char) : List Char :=
  ((t.dropWhile isPyWs).reverse.dropWhile isPyWs).reverse

/-- Python `str.split()` with no separator: split on runs of whitespace,
discarding empty fields (accumulator-style scan; `acc` holds the current
token reversed). -/
def splitWsAux : List Char → List Char → List (List Char)
  | acc, [] => if acc = [] then [] else [acc.reverse]
  | acc, c :: rest =>
    if isPyWs c then
      (if acc = [] then [] else [acc.reverse]) ++ splitWsAux [] rest
    else splitWsAux (c :: acc) rest

def splitWs (s : List Char) : List (List Char) := splitWsAux [] s

/-- Python `" ".join(parts)`. -/
def joinSp : List (List Char) → List Char
  | [] => []
  | [x] => x
  | x :: xs => x ++ ' ' :: joinSp xs

/-- Python `s.split("\n")`: split at every newline, keeping empty fields. -/
def splitNL : List Char → List (List Char)
  | [] => [[]]
  | '\n' :: rest => [] :: splitNL rest
  | c :: rest =>
    match splitNL rest with
    | [] => [[c]]
    | l :: ls => (c :: l) :: ls

/-- Python `s.split(" ")`: split at every space, keeping empty fields. -/
def splitOnSpace : List Char → List (List Char)
  | [] => [[]]
  | ' ' :: rest => [] :: splitOnSpace rest
  | c :: rest =>
    match splitOnSpace rest with
    | [] => [[c]]
    | l :: ls => (c :: l) :: ls

/-- Python's `sub in s` substring test. -/
def hasInfix (pat : List Char) : List Char → Bool
  | [] => pat.isEmpty
  | s@(_ :: rest) => pat.isPrefixOf s || hasInfix pat rest

/-- Python `s.replace(old, new, 1)` for a non-empty pattern: replace the
leftmost occurrence, if any. -/
def replaceFirst (old new : List Char) : List Char → List Char
  | [] => []
  | s@(c :: rest) =>
    if old.isPrefixOf s then new ++ s.drop old.length
    else c :: replaceFirst old new rest

/-- All splittings `s = before ++ pat ++ after`, in increasing position of
the occurrence of `pat`; used to model the backtracking search of the
lazy regex quantifiers in `IRCBot.run`'s PRIVMSG pattern. -/
def occSplits (pat : List Char) : List Char → List (List Char × List Char)
  | [] => if pat = [] then [([], [])] else []
  | c :: rest =>
    (if pat.isPrefixOf (c :: rest) then [([], (c :: rest).drop pat.length)] else [])
    ++ (occSplits pat rest).map (fun q => (c :: q.1, q.2))

/-- No newline character (the regex `.` metacharacter matches everything
except `'\n'`). -/
def noNL (s : List Char) : Bool := s.all (fun c => !(c == '\n'))

/-- Decimal representation of a natural number. -/
def natRepr (n : Nat) : List Char := (Nat.repr n).toList

/-- Decimal representation of an integer. -/
def intRepr (i : Int) : List Char := (Int.repr i).toList

/-- Two-digit zero-padded field of `strftime`. -/
def pad2 (n : Nat) : List Char := if n < 10 then '0' :: natRepr n else natRepr n

/- ──────────────────────────────────────────────────────────────────────
IRC colour / formatting constants (class IRCColors and the theme
constants of le0.py) and the formatting helper methods of IRCBot.
────────────────────────────────────────────────────────────────────── -/

namespace IRCColors

def CYAN : List Char := "\x0310".toList
def LIGHT_CYAN : List Char := "\x0311".toList
def LIGHT_GREEN : List Char := "\x0309".toList
def RED : List Char := "\x0304".toList
def ORANGE : List Char := "\x0307".toList
def YELLOW : List Char := "\x0308".toList
def PURPLE : List Char := "\x0306".toList
def LIGHT_GREY : List Char := "\x0315".toList
def PINK : List Char := "\x0313".toList
def LIGHT_BLUE : List Char := "\x0312".toList
def BOLD : List Char := "\x02".toList
def RESET : List Char := "\x0f".toList

end IRCColors

def BOX_TL : List Char := "╔".toList
def BOX_TR : List Char := "╗".toList
def BOX_BL : List Char := "╚".toList
def BOX_BR : List Char := "╝".toList
def BOX_H : List Char := "═".toList
def BOX_SEP : List Char := "•".toList
def ARROW : List Char := "▸".toList
def BULLET : List Char := "◆".toList
def DIVIDER : List Char := "─".toList
def STAR : List Char := "★".toList
def DOT : List Char := "●".toList

def COLOR_PRIMARY : List Char := IRCColors.CYAN
def COLOR_ACCENT : List Char := IRCColors.LIGHT_CYAN
def COLOR_SUCCESS : List Char := IRCColors.LIGHT_GREEN
def COLOR_ERROR : List Char := IRCColors.RED
def COLOR_INFO : List Char := IRCColors.YELLOW
def COLOR_LABEL : List Char := IRCColors.PURPLE
def COLOR_VALUE : List Char := IRCColors.LIGHT_GREY

/-- The constant left part of every `IRCBot._error` reply:
`f"{B}{COLOR_ERROR}{BULLET}{R} {COLOR_ERROR}..."`. -/
def errMarker : List Char :=
  IRCColors.BOLD ++ COLOR_ERROR ++ BULLET ++ IRCColors.RESET ++ " ".toList ++ COLOR_ERROR

/-- IRCBot._error. -/
def mkError (text : List Char) : List Char := errMarker ++ text ++ IRCColors.RESET

/-- IRCBot._success. -/
def mkSuccess (text : List Char) : List Char :=
  IRCColors.BOLD ++ COLOR_SUCCESS ++ STAR ++ IRCColors.RESET ++ " ".toList ++
    COLOR_SUCCESS ++ text ++ IRCColors.RESET

/-- IRCBot._header. -/
def mkHeader (text : List Char) : List Char :=
  IRCColors.BOLD ++ COLOR_PRIMARY ++ BOX_TL ++ BOX_H ++ BOX_H ++ " ".toList ++
    text ++ " ".toList ++ BOX_H ++ BOX_H ++ BOX_TR ++ IRCColors.RESET

/-- IRCBot._footer (both the titled and the plain form). -/
def mkFooter (text : List Char) : List Char :=
  if text = [] then
    IRCColors.BOLD ++ COLOR_PRIMARY ++ BOX_BL ++ BOX_H ++ BOX_H ++ BOX_H ++
      BOX_H ++ BOX_H ++ BOX_H ++ BOX_BR ++ IRCColors.RESET
  else
    IRCColors.BOLD ++ COLOR_PRIMARY ++ BOX_BL ++ BOX_H ++ BOX_H ++ " ".toList ++
      text ++ " ".toList ++ BOX_H ++ BOX_H ++ BOX_BR ++ IRCColors.RESET

/-- IRCBot._arrow_line. -/
def mkArrowLine (text : List Char) : List Char :=
  " ".toList ++ IRCColors.BOLD ++ COLOR_ACCENT ++ ARROW ++ IRCColors.RESET ++
    " ".toList ++ text

/-- IRCBot._label. -/
def mkLabel (text : List Char) : List Char :=
  IRCColors.BOLD ++ COLOR_LABEL ++ text ++ IRCColors.RESET

/- ──────────────────────────────────────────────────────────────────────
The Sanitizer class of le0.py.  The Unicode character classes `\w` and
`\s` of the two regexes are modelled at their ASCII core (the claims
only exercise ASCII inputs).
────────────────────────────────────────────────────────────────────── -/

namespace Sanitizer

/-- IRC_CONTROL_RE = `[\x00-\x1f\x7f]`; strip_irc_controls removes every
occurrence. -/
def strip_irc_controls (text : List Char) : List Char :=
  text.filter (fun c => !(decide (c.toNat ≤ 31) || c.toNat == 127))

/-- A character kept by `SAFE_TEXT_RE.sub('', ·)`: member of the class
`[\w\s\-.,'"!?@#&()/:;+]`. -/
def safeTextChar (c : Char) : Bool :=
  c.isAlphanum || c == '_' || isPyWs c || c == '-' || c == '.' || c == ',' ||
  c == Char.ofNat 39 || c == '"' || c == '!' || c == '?' || c == '@' ||
  c == '#' || c == '&' || c == '(' || c == ')' || c == '/' || c == ':' ||
  c == ';' || c == '+'

/-- Sanitizer.sanitize_location (MAX_LOCATION_LEN = 80). -/
def sanitize_location (location : List Char) : Option (List Char) :=
  let l1 := pyStrip (strip_irc_controls location)
  if l1 = [] ∨ 80 < l1.length then none
  else
    let l2 := pyStrip (l1.filter safeTextChar)
    if l2 = [] then none else some l2

/-- Sanitizer.sanitize_term (MAX_TERM_LEN = 100). -/
def sanitize_term (term : List Char) : Option (List Char) :=
  let t := pyStrip (strip_irc_controls term)
  if t = [] ∨ 100 < t.length then none else some t

/-- First character of NICK_RE: `[A-Za-z_\[\]\\`^{}|]` (the backtick,
brace and bracket symbols written via their code points). -/
def nickFirstChar (c : Char) : Bool :=
  c.isUpper || c.isLower || c == '_' || c == '[' || c == ']' || c == '\\' ||
  c == Char.ofNat 96 || c == '^' || c == Char.ofNat 123 || c == Char.ofNat 125 ||
  c == '|'

/-- Later characters of NICK_RE additionally allow digits and `-`. -/
def nickRestChar (c : Char) : Bool := nickFirstChar c || c.isDigit || c == '-'

/-- NICK_RE = `^[...][...]{0,29}$`. -/
def nickMatches : List Char → Bool
  | [] => false
  | c :: rest => nickFirstChar c && rest.all nickRestChar && decide (rest.length ≤ 29)

/-- Sanitizer.sanitize_nick (MAX_NICK_LEN = 30). -/
def sanitize_nick (nick : List Char) : Option (List Char) :=
  let n := pyStrip (strip_irc_controls nick)
  if n = [] ∨ 30 < n.length then none
  else if nickMatches n then some n else none

/-- Sanitizer.sanitize_quote (MAX_QUOTE_LEN = 400). -/
def sanitize_quote (text : List Char) : Option (List Char) :=
  let t := pyStrip (strip_irc_controls text)
  if t = [] ∨ 400 < t.length then none else some t

/-- Sanitizer.sanitize_generic (MAX_GENERIC_LEN = 200). -/
def sanitize_generic (text : List Char) : Option (List Char) :=
  let t := pyStrip (strip_irc_controls text)
  if t = [] ∨ 200 < t.length then none else some t

/-- Sanitizer.sanitize_irc_output: `CRLF_RE.sub('', text)`, the
substitution of the single-character class `[\r\n]` by the empty string,
scanned left to right. -/
def sanitize_irc_output : List Char → List Char
  | [] => []
  | c :: rest =>
    if c = '\r' ∨ c = '\n' then sanitize_irc_output rest
    else c :: sanitize_irc_output rest

end Sanitizer

/- ──────────────────────────────────────────────────────────────────────
Outbound frames.  `IRCBot.send_raw` passes every message through
`sanitize_irc_output` before appending CRLF and writing to the socket;
a frame in the model is the sanitized line content handed to the
transport.  `IRCBot.send_message` additionally sanitizes the message
before embedding it in a PRIVMSG frame.
────────────────────────────────────────────────────────────────────── -/

def sendRawFrame (message : List Char) : List Char :=
  Sanitizer.sanitize_irc_output message

def sendMessageFrame (target message : List Char) : List Char :=
  sendRawFrame ( "PRIVMSG ".toList ++ target ++ " :".toList ++
    Sanitizer.sanitize_irc_output message)

def pingVerb : List Char := "PING".toList

def pongVerb : List Char := "PONG".toList

/-- `line.startswith("PING")`. -/
def startsPing (line : List Char) : Bool := pingVerb.isPrefixOf line

/-- The keepalive response: `send_raw(line.replace("PING", "PONG", 1))`,
used verbatim in both the handshake loop and the steady-state loop. -/
def pongFrame (line : List Char) : List Char :=
  sendRawFrame (replaceFirst pingVerb pongVerb line)

/-- IRCBot.join_channel: `send_raw(f"JOIN {channel}")`. -/
def joinFrame (channel : List Char) : List Char :=
  sendRawFrame ( "JOIN ".toList ++ channel)

def marker376 : List Char := " 376 ".toList

def marker422 : List Char := " 422 ".toList

/-- The handshake-completion test of `IRCBot.run`:
`" 376 " in line or " 422 " in line`. -/
def markerHit (line : List Char) : Bool :=
  hasInfix marker376 line || hasInfix marker422 line

/-- Modelled from the claim's words (C2): the line "contains 376 or 422
as a space-delimited token anywhere in the line", i.e. splitting the
line at spaces yields a token equal to "376" or "422". -/
def claimSpaceTokenHit (line : List Char) : Bool :=
  (splitOnSpace line).any (fun t => t == "376".toList || t == "422".toList)

/-- The body of the handshake `for line in lines` loop of `IRCBot.run`
over one batch of complete lines: answer PING probes, and on the first
marker line emit a JOIN for every configured channel (in order) and
`break`, discarding the remaining lines of the batch.  Returns the
emitted frames and the `connected` flag. -/
def handshakeStep (channels : List (List Char)) :
    List (List Char) → List (List Char) × Bool
  | [] => ([], false)
  | l :: ls =>
    let pongs := if startsPing l then [pongFrame l] else []
    if markerHit l then (pongs ++ channels.map joinFrame, true)
    else (pongs ++ (handshakeStep channels ls).1, (handshakeStep channels ls).2)

/-- The prefix of a line list up to and including the first marker line. -/
def uptoMarker : List (List Char) → List (List Char)
  | [] => []
  | l :: ls => if markerHit l then [l] else l :: uptoMarker ls

/-- The PONG frames answering the PING lines of a line list, in order. -/
def pongsOf (ls : List (List Char)) : List (List Char) :=
  ls.filterMap (fun l => if startsPing l then some (pongFrame l) else none)

/- ──────────────────────────────────────────────────────────────────────
Bot state and external collaborators.  Timestamps (`time.time()`) are
modelled as integers; the claims only compare them against the integer
cooldown.  The ~20 stateless command handlers (weather, urban, dice,
calculator, hashing, 8ball, ... — HTTP- or randomness-driven) are
external collaborators per the spec and are injected as the `Handlers`
record; the stateful stores (seen map, quote list, rate-limit map) and
the router around them are modelled concretely.
────────────────────────────────────────────────────────────────────── -/

structure SeenRec where
  nick : List Char
  channel : List Char
  message : List Char
  time : Int
deriving DecidableEq

structure QuoteRec where
  quote : List Char
  added_by : List Char
  timestamp : Int
deriving DecidableEq

structure BotSt where
  user_last_cmd : List (List Char × Int)
  seen_users : List (List Char × SeenRec)
  quotes : List QuoteRec
  start_time : Int
deriving DecidableEq

structure Handlers where
  weather : List Char → List Char
  forecast : List Char → List (List Char)
  urban : List Char → List Char
  timeCmd : Option (List Char) → List Char
  coin : List Char
  roll : List Char → List Char
  eightball : List Char → List Char
  rps : List Char → List Char
  fact : List Char
  calcEval : List Char → List Char
  hashText : List Char → List Char
  base64 : List Char → List Char → List Char
  pickQuote : Nat

/-- A handlers record with inert values, used for closed test inputs. -/
def trivialHandlers : Handlers where
  weather _ := []
  forecast _ := []
  urban _ := []
  timeCmd _ := []
  coin := []
  roll _ := []
  eightball _ := []
  rps _ := []
  fact := []
  calcEval _ := []
  hashText _ := []
  base64 _ _ := []
  pickQuote := 0

/-- Python `dict` lookup on an association list. -/
def alGet {α : Type} (m : List (List Char × α)) (k : List Char) : Option α :=
  (m.find? (fun e => e.1 == k)).map (fun e => e.2)

/-- Python `dict` assignment `m[k] = v` (lookup-equivalent encoding). -/
def alSet {α : Type} (m : List (List Char × α)) (k : List Char) (v : α) :
    List (List Char × α) :=
  (k, v) :: m.filter (fun e => !(e.1 == k))

/-- IRCBot._check_rate_limit: `rate_limit_seconds = 2`; on rejection the
map is untouched, on admission the identity's timestamp is set to `now`
before returning.  Returns the verdict with the updated map. -/
def check_rate_limit (m : List (List Char × Int)) (now : Int) (nick : List Char) :
    Bool × List (List Char × Int) :=
  let last := (alGet m (lowerStr nick)).getD 0
  if now - last < 2 then (false, m)
  else (true, alSet m (lowerStr nick) now)

/-- IRCBot.track_seen: overwrite the record of the lower-cased identity
with channel, the message truncated to 100 characters, and the time. -/
def track_seen (st : BotSt) (now : Int) (nick channel message : List Char) : BotSt :=
  let entry : SeenRec :=
    { nick := nick, channel := channel, message := message.take 100, time := now }
  { st with seen_users := alSet st.seen_users (lowerStr nick) entry }

/-- Elapsed-time phrase of IRCBot.get_seen. -/
def seenAgo (elapsed : Int) : List Char :=
  if elapsed < 60 then intRepr elapsed ++ "s ago".toList
  else if elapsed < 3600 then intRepr (elapsed.fdiv 60) ++ "m ago".toList
  else if elapsed < 86400 then intRepr (elapsed.fdiv 3600) ++ "h ago".toList
  else intRepr (elapsed.fdiv 86400) ++ "d ago".toList

/-- IRCBot.get_seen: the reply string (possibly multi-line). -/
def get_seen (st : BotSt) (now : Int) (nick : List Char) : List Char :=
  match alGet st.seen_users (lowerStr nick) with
  | some user =>
    let time_text := IRCColors.YELLOW ++ seenAgo (now - user.time) ++ IRCColors.RESET
    let nick_text := IRCColors.BOLD ++ IRCColors.PINK ++ user.nick ++ IRCColors.RESET
    let channel_text := COLOR_ACCENT ++ user.channel ++ IRCColors.RESET
    let msg_text := COLOR_VALUE ++ user.message ++ IRCColors.RESET
    mkHeader ( "User Seen".toList) ++ '\n' ::
      mkArrowLine (nick_text ++ " ".toList ++ COLOR_PRIMARY ++ DIVIDER ++ DIVIDER ++
        IRCColors.RESET ++ " ".toList ++ time_text ++ " in ".toList ++ channel_text) ++ '\n' ::
      mkArrowLine (mkLabel ( "Message".toList) ++ ": ".toList ++ msg_text)
  | none => mkError ( "Haven't seen ".toList ++ nick ++ " yet".toList)

/-- IRCBot.add_quote's success reply for the `quote_num`-th quote. -/
def addQuoteReply (num : Nat) (added_by : List Char) : List Char :=
  mkSuccess ( "Quote ".toList ++ IRCColors.BOLD ++ IRCColors.YELLOW ++
    '#' :: natRepr num ++ IRCColors.RESET ++ " added by ".toList ++
    IRCColors.BOLD ++ IRCColors.CYAN ++ added_by ++ IRCColors.RESET)

/-- IRCBot.get_random_quote, the random index injected as `pick`
(`random.choice` picks some element; `quotes.index` then finds the first
equal element). -/
def get_random_quote (quotes : List QuoteRec) (pick : Nat) : List Char :=
  match quotes with
  | [] => mkError ( "No quotes stored yet. Use %addquote to add one.".toList)
  | q0 :: _ =>
    let qd := quotes.getD (pick % quotes.length) q0
    let num := (quotes.findIdx (fun r => decide (r = qd))) + 1
    let quote_text := COLOR_ACCENT ++ qd.quote ++ IRCColors.RESET
    let by_text := IRCColors.BOLD ++ IRCColors.PINK ++ qd.added_by ++ IRCColors.RESET
    mkHeader ( "Quote ".toList ++ IRCColors.BOLD ++ IRCColors.YELLOW ++
        '#' :: natRepr num ++ IRCColors.RESET) ++ '\n' ::
      mkArrowLine (IRCColors.YELLOW ++ '"' :: IRCColors.RESET ++ quote_text ++
        IRCColors.YELLOW ++ '"' :: IRCColors.RESET) ++ '\n' ::
      mkArrowLine (COLOR_PRIMARY ++ DIVIDER ++ DIVIDER ++ IRCColors.RESET ++
        " added by ".toList ++ by_text)

/-- IRCBot.get_uptime (`int(...)` of a monotone clock difference). -/
def get_uptime (now start : Int) : List Char :=
  let elapsed := (now - start).toNat
  let days := elapsed / 86400
  let hours := elapsed % 86400 / 3600
  let minutes := elapsed % 3600 / 60
  let seconds := elapsed % 60
  let parts :=
    (if 0 < days then [natRepr days ++ [ 'd']] else []) ++
    (if 0 < hours then [natRepr hours ++ [ 'h']] else []) ++
    (if 0 < minutes then [natRepr minutes ++ [ 'm']] else []) ++
    [natRepr seconds ++ [ 's']]
  mkHeader ( "Bot Uptime".toList) ++ " ".toList ++ IRCColors.BOLD ++
    COLOR_SUCCESS ++ joinSp parts ++ IRCColors.RESET

/-- IRCBot.do_ping (the strftime "%H:%M:%S" of the current UTC time). -/
def do_ping (now : Int) : List Char :=
  let secs := now.toNat
  let ts := pad2 (secs / 3600 % 24) ++ ':' :: pad2 (secs / 60 % 60) ++ ':' :: pad2 (secs % 60)
  mkHeader ( "Pong".toList) ++ " ".toList ++ IRCColors.BOLD ++ COLOR_SUCCESS ++
    "PONG!".toList ++ IRCColors.RESET ++ " ".toList ++ COLOR_ACCENT ++ DOT ++
    IRCColors.RESET ++ " ".toList ++ IRCColors.YELLOW ++ ts ++ IRCColors.RESET

/-- Alternating-case core of IRCBot.mock_text (index 0 upper-cased). -/
def mockChars : Bool → List Char → List Char
  | _, [] => []
  | up, c :: rest => (if up then c.toUpper else c.toLower) :: mockChars (!up) rest

/-- IRCBot.mock_text. -/
def mock_text (text : List Char) : List Char :=
  mkHeader ( "Mock Text".toList) ++ '\n' ::
    mkArrowLine (IRCColors.YELLOW ++ mockChars true text ++ IRCColors.RESET)

/-- IRCBot.reverse_text. -/
def reverse_text (text : List Char) : List Char :=
  mkHeader ( "Reverse Text".toList) ++ '\n' ::
    mkArrowLine (COLOR_ACCENT ++ text.reverse ++ IRCColors.RESET)

/-- The dice-format gate regex `^\d{0,3}d?\d{1,4}$` of the roll command,
matched against the lower-cased argument.  If the string contains a `d`,
the (unique matchable) `d` must be the first one, preceded by at most
three digits and followed by one to four digits; otherwise the string
must be one to seven digits (the two digit runs of the regex adjoin). -/
def rollFmt (s : List Char) : Bool :=
  if s.any (fun c => c == 'd') then
    (s.takeWhile (fun c => !(c == 'd'))).all Char.isDigit &&
    decide ((s.takeWhile (fun c => !(c == 'd'))).length ≤ 3) &&
    ((s.dropWhile (fun c => !(c == 'd'))).tail).all Char.isDigit &&
    decide (1 ≤ ((s.dropWhile (fun c => !(c == 'd'))).tail).length) &&
    decide (((s.dropWhile (fun c => !(c == 'd'))).tail).length ≤ 4)
  else
    s.all Char.isDigit && decide (1 ≤ s.length) && decide (s.length ≤ 7)

/-- Send a (possibly multi-line) handler reply: one PRIVMSG frame per
`'\n'`-separated line, as in `for line in result.split('\n')`. -/
def splitSend (channel reply : List Char) : List (List Char) :=
  (splitNL reply).map (fun line => sendMessageFrame channel line)

/-- The help menu lines of the `%help` command. -/
def helpLines (p : List Char) : List (List Char) :=
  let sep := COLOR_PRIMARY ++ BOX_SEP ++ IRCColors.RESET
  let acc := fun (t : List Char) => COLOR_ACCENT ++ t ++ IRCColors.RESET
  let tag := fun (color t : List Char) => IRCColors.BOLD ++ color ++ t ++ IRCColors.RESET
  [ mkHeader ( "le0 Bot Commands ".toList ++ BOX_SEP ++ " Help Menu".toList),
    " ".toList ++ tag IRCColors.CYAN ( "[Weather]".toList) ++ "  ".toList ++
      acc (p ++ "weather/w <loc>".toList) ++ " ".toList ++ sep ++ " ".toList ++
      acc (p ++ "forecast/f <loc>".toList),
    " ".toList ++ tag IRCColors.YELLOW ( "[Info]".toList) ++ "     ".toList ++
      acc (p ++ "urban/ud <term>".toList) ++ " ".toList ++ sep ++ " ".toList ++
      acc (p ++ "time [loc]".toList),
    " ".toList ++ tag IRCColors.PINK ( "[Fun]".toList) ++ "      ".toList ++
      acc (p ++ "coin/flip".toList) ++ " ".toList ++ sep ++ " ".toList ++
      acc (p ++ "roll/dice [XdY]".toList) ++ " ".toList ++ sep ++ " ".toList ++
      acc (p ++ "8ball/8 <q>".toList),
    "             ".toList ++ acc (p ++ "rps <r/p/s>".toList) ++ " ".toList ++
      sep ++ " ".toList ++ acc (p ++ "fact".toList),
    " ".toList ++ tag IRCColors.PURPLE ( "[Social]".toList) ++ "   ".toList ++
      acc (p ++ "quote".toList) ++ " ".toList ++ sep ++ " ".toList ++
      acc (p ++ "addquote <text>".toList),
    " ".toList ++ tag IRCColors.LIGHT_GREEN ( "[Utility]".toList) ++ "  ".toList ++
      acc (p ++ "seen <nick>".toList) ++ " ".toList ++ sep ++ " ".toList ++
      acc (p ++ "ping".toList) ++ " ".toList ++ sep ++ " ".toList ++
      acc (p ++ "uptime".toList),
    " ".toList ++ tag IRCColors.ORANGE ( "[Tools]".toList) ++ "    ".toList ++
      acc (p ++ "calc <expr>".toList) ++ " ".toList ++ sep ++ " ".toList ++
      acc (p ++ "hash <text>".toList) ++ " ".toList ++ sep ++ " ".toList ++
      acc (p ++ "base64/b64 <e/d>".toList),
    " ".toList ++ tag IRCColors.LIGHT_BLUE ( "[Text]".toList) ++ "     ".toList ++
      acc (p ++ "reverse <text>".toList) ++ " ".toList ++ sep ++ " ".toList ++
      acc (p ++ "mock <text>".toList),
    mkFooter ( "Type ".toList ++ IRCColors.BOLD ++ COLOR_ACCENT ++ p ++
      "help".toList ++ IRCColors.RESET ++ " anytime".toList) ]

/- The branches of IRCBot.handle_command, one definition per command.
`args` are the tokens after the command name (the code's `parts[1:]`,
so the `len(parts) < k` checks become `args = []` / `args.length < 2`,
and `parts[1]` becomes `args.headD []` under the respective guard). -/

def cmdWeather (H : Handlers) (p : List Char) (st : BotSt) (channel : List Char)
    (args : List (List Char)) : List (List Char) × BotSt :=
  if args = [] then
    ([sendMessageFrame channel (mkError ( "Usage: ".toList ++ p ++ "weather <location>".toList))], st)
  else if (Sanitizer.sanitize_location (joinSp args)).isNone then
    ([sendMessageFrame channel (mkError ( "Invalid location".toList))], st)
  else (splitSend channel (H.weather ((Sanitizer.sanitize_location (joinSp args)).getD [])), st)

def cmdForecast (H : Handlers) (p : List Char) (st : BotSt) (channel : List Char)
    (args : List (List Char)) : List (List Char) × BotSt :=
  if args = [] then
    ([sendMessageFrame channel (mkError ( "Usage: ".toList ++ p ++ "forecast <location>".toList))], st)
  else if (Sanitizer.sanitize_location (joinSp args)).isNone then
    ([sendMessageFrame channel (mkError ( "Invalid location".toList))], st)
  else ((H.forecast ((Sanitizer.sanitize_location (joinSp args)).getD [])).map
    (fun f => sendMessageFrame channel f), st)

def cmdUrban (H : Handlers) (p : List Char) (st : BotSt) (channel : List Char)
    (args : List (List Char)) : List (List Char) × BotSt :=
  if args = [] then
    ([sendMessageFrame channel (mkError ( "Usage: ".toList ++ p ++ "urban <term>".toList))], st)
  else if (Sanitizer.sanitize_term (joinSp args)).isNone then
    ([sendMessageFrame channel (mkError ( "Invalid search term".toList))], st)
  else (splitSend channel (H.urban ((Sanitizer.sanitize_term (joinSp args)).getD [])), st)

def cmdTime (H : Handlers) (st : BotSt) (channel : List Char)
    (args : List (List Char)) : List (List Char) × BotSt :=
  ([sendMessageFrame channel
    (H.timeCmd (if args = [] then none else Sanitizer.sanitize_location (joinSp args)))], st)

def cmdCoin (H : Handlers) (st : BotSt) (channel : List Char) :
    List (List Char) × BotSt :=
  (splitSend channel H.coin, st)

def cmdRoll (H : Handlers) (st : BotSt) (channel : List Char)
    (args : List (List Char)) : List (List Char) × BotSt :=
  if !(rollFmt (lowerStr (args.headD ( "1d6".toList)))) then
    ([sendMessageFrame channel (mkError ( "Invalid dice format (use: 2d6, 1d20)".toList))], st)
  else ([sendMessageFrame channel (H.roll (args.headD ( "1d6".toList)))], st)

def cmdEightball (H : Handlers) (st : BotSt) (channel : List Char)
    (args : List (List Char)) : List (List Char) × BotSt :=
  (splitSend channel (H.eightball (joinSp args)), st)

def cmdRps (H : Handlers) (p : List Char) (st : BotSt) (channel : List Char)
    (args : List (List Char)) : List (List Char) × BotSt :=
  if args = [] then
    ([sendMessageFrame channel (mkError ( "Usage: ".toList ++ p ++ "rps <rock|paper|scissors>".toList))], st)
  else ([sendMessageFrame channel (H.rps (args.headD []))], st)

def cmdFact (H : Handlers) (st : BotSt) (channel : List Char) :
    List (List Char) × BotSt :=
  (splitSend channel H.fact, st)

def cmdSeen (p : List Char) (st : BotSt) (now : Int) (channel : List Char)
    (args : List (List Char)) : List (List Char) × BotSt :=
  if args = [] then
    ([sendMessageFrame channel (mkError ( "Usage: ".toList ++ p ++ "seen <nick>".toList))], st)
  else if (Sanitizer.sanitize_nick (args.headD [])).isNone then
    ([sendMessageFrame channel (mkError ( "Invalid nickname".toList))], st)
  else (splitSend channel (get_seen st now ((Sanitizer.sanitize_nick (args.headD [])).getD [])), st)

def cmdAddquote (p : List Char) (st : BotSt) (now : Int) (channel nick : List Char)
    (args : List (List Char)) : List (List Char) × BotSt :=
  if args = [] then
    ([sendMessageFrame channel (mkError ( "Usage: ".toList ++ p ++ "addquote <quote>".toList))], st)
  else if (Sanitizer.sanitize_quote (joinSp args)).isNone then
    ([sendMessageFrame channel (mkError ( "Invalid quote (too long or empty)".toList))], st)
  else
    ([sendMessageFrame channel (addQuoteReply (st.quotes.length + 1) nick)],
     { st with quotes := st.quotes ++
        [{ quote := (Sanitizer.sanitize_quote (joinSp args)).getD [],
           added_by := nick, timestamp := now }] })

def cmdQuote (H : Handlers) (st : BotSt) (channel : List Char) :
    List (List Char) × BotSt :=
  (splitSend channel (get_random_quote st.quotes H.pickQuote), st)

def cmdUptime (st : BotSt) (now : Int) (channel : List Char) :
    List (List Char) × BotSt :=
  ([sendMessageFrame channel (get_uptime now st.start_time)], st)

def cmdPing (st : BotSt) (now : Int) (channel : List Char) :
    List (List Char) × BotSt :=
  ([sendMessageFrame channel (do_ping now)], st)

def cmdCalc (H : Handlers) (p : List Char) (st : BotSt) (channel : List Char)
    (args : List (List Char)) : List (List Char) × BotSt :=
  if args = [] then
    ([sendMessageFrame channel (mkError ( "Usage: ".toList ++ p ++ "calc <expression>".toList))], st)
  else ([sendMessageFrame channel (H.calcEval (joinSp args))], st)

def cmdHash (H : Handlers) (p : List Char) (st : BotSt) (channel : List Char)
    (args : List (List Char)) : List (List Char) × BotSt :=
  if args = [] then
    ([sendMessageFrame channel (mkError ( "Usage: ".toList ++ p ++ "hash <text>".toList))], st)
  else if (Sanitizer.sanitize_generic (joinSp args)).isNone then
    ([sendMessageFrame channel (mkError ( "Invalid input".toList))], st)
  else (splitSend channel (H.hashText ((Sanitizer.sanitize_generic (joinSp args)).getD [])), st)

def cmdBase64 (H : Handlers) (p : List Char) (st : BotSt) (channel : List Char)
    (args : List (List Char)) : List (List Char) × BotSt :=
  if args.length < 2 then
    ([sendMessageFrame channel (mkError ( "Usage: ".toList ++ p ++ "base64 <encode|decode> <text>".toList))], st)
  else if (Sanitizer.sanitize_generic (joinSp args.tail)).isNone then
    ([sendMessageFrame channel (mkError ( "Invalid input".toList))], st)
  else (splitSend channel (H.base64 (lowerStr (args.headD []))
    ((Sanitizer.sanitize_generic (joinSp args.tail)).getD [])), st)

def cmdReverse (p : List Char) (st : BotSt) (channel : List Char)
    (args : List (List Char)) : List (List Char) × BotSt :=
  if args = [] then
    ([sendMessageFrame channel (mkError ( "Usage: ".toList ++ p ++ "reverse <text>".toList))], st)
  else if (Sanitizer.sanitize_generic (joinSp args)).isNone then
    ([sendMessageFrame channel (mkError ( "Invalid input".toList))], st)
  else (splitSend channel (reverse_text ((Sanitizer.sanitize_generic (joinSp args)).getD [])), st)

def cmdMock (p : List Char) (st : BotSt) (channel : List Char)
    (args : List (List Char)) : List (List Char) × BotSt :=
  if args = [] then
    ([sendMessageFrame channel (mkError ( "Usage: ".toList ++ p ++ "mock <text>".toList))], st)
  else if (Sanitizer.sanitize_generic (joinSp args)).isNone then
    ([sendMessageFrame channel (mkError ( "Invalid input".toList))], st)
  else ([sendMessageFrame channel (mock_text ((Sanitizer.sanitize_generic (joinSp args)).getD []))], st)

def cmdHelp (p : List Char) (st : BotSt) (channel : List Char) :
    List (List Char) × BotSt :=
  ((helpLines p).map (fun line => sendMessageFrame channel line), st)

/-- The command-name recognition of the dispatch chain of
IRCBot.handle_command: the `command in (f"{p}weather", f"{p}w")` /
`command == f"{p}..."` tests, in source order, reified as a tag (the
first matching test wins, as in the elif chain; `unknown` when no test
matches, in which case the code falls through with no reply). -/
inductive Cmd where
  | weather | forecast | urban | time | coin | roll | eightball | rps | fact
  | seen | addquote | quote | uptime | ping | calcExpr | hash | base64
  | reverse | mock | help | unknown
deriving DecidableEq

def parseCommand (p command : List Char) : Cmd :=
  if command = p ++ "weather".toList ∨ command = p ++ "w".toList then .weather
  else if command = p ++ "forecast".toList ∨ command = p ++ "f".toList then .forecast
  else if command = p ++ "urban".toList ∨ command = p ++ "ud".toList then .urban
  else if command = p ++ "time".toList then .time
  else if command = p ++ "coin".toList ∨ command = p ++ "flip".toList then .coin
  else if command = p ++ "roll".toList ∨ command = p ++ "dice".toList then .roll
  else if command = p ++ "8ball".toList ∨ command = p ++ "8".toList then .eightball
  else if command = p ++ "rps".toList then .rps
  else if command = p ++ "fact".toList then .fact
  else if command = p ++ "seen".toList then .seen
  else if command = p ++ "addquote".toList then .addquote
  else if command = p ++ "quote".toList then .quote
  else if command = p ++ "uptime".toList then .uptime
  else if command = p ++ "ping".toList then .ping
  else if command = p ++ "calc".toList then .calcExpr
  else if command = p ++ "hash".toList then .hash
  else if command = p ++ "base64".toList ∨ command = p ++ "b64".toList then .base64
  else if command = p ++ "reverse".toList then .reverse
  else if command = p ++ "mock".toList then .mock
  else if command = p ++ "help".toList then .help
  else .unknown

/-- The command dispatch of IRCBot.handle_command after rate limiting and
tokenization: `command` is the lower-cased first token, `args` the
remaining tokens.  All state mutation (quote append) and stateful reads
(seen map, quote list, uptime) are concrete; stateless collaborator
handlers come from `H`. -/
def dispatchCmd (H : Handlers) (p : List Char) (st : BotSt) (now : Int)
    (channel nick command : List Char) (args : List (List Char)) :
    List (List Char) × BotSt :=
  match parseCommand p command with
  | .weather => cmdWeather H p st channel args
  | .forecast => cmdForecast H p st channel args
  | .urban => cmdUrban H p st channel args
  | .time => cmdTime H st channel args
  | .coin => cmdCoin H st channel
  | .roll => cmdRoll H st channel args
  | .eightball => cmdEightball H st channel args
  | .rps => cmdRps H p st channel args
  | .fact => cmdFact H st channel
  | .seen => cmdSeen p st now channel args
  | .addquote => cmdAddquote p st now channel nick args
  | .quote => cmdQuote H st channel
  | .uptime => cmdUptime st now channel
  | .ping => cmdPing st now channel
  | .calcExpr => cmdCalc H p st channel args
  | .hash => cmdHash H p st channel args
  | .base64 => cmdBase64 H p st channel args
  | .reverse => cmdReverse p st channel args
  | .mock => cmdMock p st channel args
  | .help => cmdHelp p st channel
  | .unknown => ([], st)

/-- The router-level validation verdict (statement-side companion of
`dispatchCmd`, used to express claim C5): `some errText` when the branch
taken by the dispatch fails its minimum-argument check or its
`Sanitizer` gate, `none` otherwise.  Mirrors the guard structure of
`dispatchCmd` branch by branch. -/
def validationErrorCmd (p : List Char) (command : List Char)
    (args : List (List Char)) : Option (List Char) :=
  match parseCommand p command with
  | .weather =>
    if args = [] then some ( "Usage: ".toList ++ p ++ "weather <location>".toList)
    else if (Sanitizer.sanitize_location (joinSp args)).isNone then
      some ( "Invalid location".toList)
    else none
  | .forecast =>
    if args = [] then some ( "Usage: ".toList ++ p ++ "forecast <location>".toList)
    else if (Sanitizer.sanitize_location (joinSp args)).isNone then
      some ( "Invalid location".toList)
    else none
  | .urban =>
    if args = [] then some ( "Usage: ".toList ++ p ++ "urban <term>".toList)
    else if (Sanitizer.sanitize_term (joinSp args)).isNone then
      some ( "Invalid search term".toList)
    else none
  | .rps =>
    if args = [] then some ( "Usage: ".toList ++ p ++ "rps <rock|paper|scissors>".toList)
    else none
  | .seen =>
    if args = [] then some ( "Usage: ".toList ++ p ++ "seen <nick>".toList)
    else if (Sanitizer.sanitize_nick (args.headD [])).isNone then
      some ( "Invalid nickname".toList)
    else none
  | .addquote =>
    if args = [] then some ( "Usage: ".toList ++ p ++ "addquote <quote>".toList)
    else if (Sanitizer.sanitize_quote (joinSp args)).isNone then
      some ( "Invalid quote (too long or empty)".toList)
    else none
  | .calcExpr =>
    if args = [] then some ( "Usage: ".toList ++ p ++ "calc <expression>".toList)
    else none
  | .hash =>
    if args = [] then some ( "Usage: ".toList ++ p ++ "hash <text>".toList)
    else if (Sanitizer.sanitize_generic (joinSp args)).isNone then
      some ( "Invalid input".toList)
    else none
  | .base64 =>
    if args.length < 2 then
      some ( "Usage: ".toList ++ p ++ "base64 <encode|decode> <text>".toList)
    else if (Sanitizer.sanitize_generic (joinSp args.tail)).isNone then
      some ( "Invalid input".toList)
    else none
  | .reverse =>
    if args = [] then some ( "Usage: ".toList ++ p ++ "reverse <text>".toList)
    else if (Sanitizer.sanitize_generic (joinSp args)).isNone then
      some ( "Invalid input".toList)
    else none
  | .mock =>
    if args = [] then some ( "Usage: ".toList ++ p ++ "mock <text>".toList)
    else if (Sanitizer.sanitize_generic (joinSp args)).isNone then
      some ( "Invalid input".toList)
    else none
  | _ => none

/-- The router-level validation verdict of a whole trigger message:
tokenize as `handle_command` does and consult `validationErrorCmd`. -/
def validationError (p message : List Char) : Option (List Char) :=
  match splitWs message with
  | [] => none
  | c0 :: args => validationErrorCmd p (lowerStr c0) args

/-- IRCBot.handle_command: rate-limit first (recording the admission
timestamp before anything else), then tokenize and dispatch. -/
def handleCommand (H : Handlers) (p : List Char) (st : BotSt) (now : Int)
    (channel nick message : List Char) : List (List Char) × BotSt :=
  if (check_rate_limit st.user_last_cmd now nick).1 then
    dispatchParts H p
      { st with user_last_cmd := (check_rate_limit st.user_last_cmd now nick).2 }
      now channel nick (splitWs message)
  else ([], st)
where
  dispatchParts (H : Handlers) (p : List Char) (st : BotSt) (now : Int)
      (channel nick : List Char) : List (List Char) → List (List Char) × BotSt
  | [] => ([], st)
  | c0 :: args => dispatchCmd H p st now channel nick (lowerStr c0) args

/- ──────────────────────────────────────────────────────────────────────
The steady-state (Ready) loop of IRCBot.run, per complete line: answer
PING probes; otherwise parse the chat-delivery frame with the
backtracking regex `:(.+?)!.+? PRIVMSG (.+?) :(.+)`, skip own messages,
track the sender, and dispatch trigger-prefixed messages.
────────────────────────────────────────────────────────────────────── -/

/-- The anchored match of `re.match(r':(.+?)!.+? PRIVMSG (.+?) :(.+)', line)`,
with the lazy groups resolved by first-success backtracking over
occurrence positions in increasing order, `.` excluding newlines, and
the final greedy `(.+)` running to the next newline or the end. -/
def parsePrivmsg (line : List Char) : Option (List Char × List Char × List Char) :=
  match line with
  | [] => none
  | c :: rest =>
    if c = ':' then
      (occSplits ['!'] rest).findSome? (fun q1 =>
        if q1.1 = [] ∨ noNL q1.1 = false then none
        else (occSplits ( " PRIVMSG ".toList) q1.2).findSome? (fun q2 =>
          if q2.1 = [] ∨ noNL q2.1 = false then none
          else (occSplits ( " :".toList) q2.2).findSome? (fun q3 =>
            if q3.1 = [] ∨ noNL q3.1 = false then none
            else if q3.2.takeWhile (fun c => !(c == '\n')) = [] then none
            else some (q1.1, q3.1, q3.2.takeWhile (fun c => !(c == '\n'))))))
    else none

/-- The per-line body of the steady-state loop. -/
def readyLine (H : Handlers) (p botNick : List Char) (st : BotSt) (now : Int)
    (line : List Char) : List (List Char) × BotSt :=
  if startsPing line then ([pongFrame line], st)
  else
    match parsePrivmsg line with
    | none => ([], st)
    | some (nick, channel, message) =>
      if nick = botNick then ([], st)
      else
        let st1 := track_seen st now nick channel message
        if p.isPrefixOf message then handleCommand H p st1 now channel nick message
        else ([], st1)

/-- Process a batch of complete lines in order, one clock value consumed
per line. -/
def readyLines (H : Handlers) (p botNick : List Char) (st : BotSt) (ts : List Int) :
    List (List Char) → List (List Char) × BotSt × List Int
  | [] => ([], st, ts)
  | l :: ls =>
    let r := readyLine H p botNick st (ts.headD 0) l
    ((r.1 ++ (readyLines H p botNick r.2 ts.tail ls).1),
     (readyLines H p botNick r.2 ts.tail ls).2.1,
     (readyLines H p botNick r.2 ts.tail ls).2.2)

/-- The steady-state `while True` loop over the remaining chunks, with
the frame-reader carry buffer threading through. -/
def readyPhase (H : Handlers) (p botNick : List Char) (st : BotSt) (buf : List Char)
    (ts : List Int) : List (List Char) → List (List Char) × BotSt
  | [] => ([], st)
  | ch :: rest =>
    let s := splitCRLF (buf ++ ch)
    let r := readyLines H p botNick st ts s.1
    ((r.1 ++ (readyPhase H p botNick r.2.1 s.2 r.2.2 rest).1),
     (readyPhase H p botNick r.2.1 s.2 r.2.2 rest).2)

/-- The handshake `while not connected` loop over chunks: split each
batch, run the per-batch for-loop; on the marker, stop — the remaining
lines of the batch and the carry fragment are abandoned (and
`buffer = ""` follows the loop in the code).  Returns the frames, the
connected flag, and the chunks left for the steady-state loop. -/
def handshakePhase (channels : List (List Char)) (buf : List Char) :
    List (List Char) → List (List Char) × Bool × List (List Char)
  | [] => ([], false, [])
  | ch :: rest =>
    let s := splitCRLF (buf ++ ch)
    let hs := handshakeStep channels s.1
    if hs.2 then (hs.1, true, rest)
    else
      ((hs.1 ++ (handshakePhase channels s.2 rest).1),
       (handshakePhase channels s.2 rest).2.1,
       (handshakePhase channels s.2 rest).2.2)

structure Config where
  nickname : List Char
  channels : List (List Char)
  password : Option (List Char)
  pfx : List Char

/-- IRCBot.connect's registration frames: optional PASS, then NICK and
USER. -/
def connectFrames (cfg : Config) : List (List Char) :=
  (match cfg.password with
   | some pw => [sendRawFrame ( "PASS ".toList ++ pw)]
   | none => []) ++
  [sendRawFrame ( "NICK ".toList ++ cfg.nickname),
   sendRawFrame ( "USER ".toList ++ cfg.nickname ++ " 0 * :".toList ++ cfg.nickname)]

/-- The best-effort shutdown frame of the KeyboardInterrupt path. -/
def quitFrame : List Char := sendRawFrame ( "QUIT :le0 shutting down".toList)

/-- A fresh bot state at process start. -/
def initialState (start : Int) : BotSt :=
  { user_last_cmd := [], seen_users := [], quotes := [], start_time := start }

/-- The frames of a whole session from a given handshake carry buffer:
handshake phase, then — if the handshake completed — the steady-state
phase started with an empty carry buffer (`buffer = ""` on line 1133) on
the remaining chunks. -/
def botRun (cfg : Config) (H : Handlers) (ts : List Int) (start : Int)
    (buf : List Char) (chunks : List (List Char)) : List (List Char) :=
  let hs := handshakePhase cfg.channels buf chunks
  if hs.2.1 then
    hs.1 ++ (readyPhase H cfg.pfx cfg.nickname (initialState start) [] ts hs.2.2).1
  else hs.1

/-- An error-styled reply frame: one carrying the constant `_error`
colour/icon marker. -/
def errorStyled (frame : List Char) : Bool := hasInfix errMarker frame

/-- A frame free of the line delimiter characters. -/
def cleanFrame (f : List Char) : Bool := f.all (fun c => !(c == '\r' || c == '\n'))

/- ──────────────────────────────────────────────────────────────────────
Theorems.
────────────────────────────────────────────────────────────────────── -/

theorem hasCRLF_cons (c : Char) (s : List Char) :
    hasCRLF (c :: s) = ((c == '\r') && (s.head? == some '\n') || hasCRLF s) := by
  cases s with
  | nil =>
    rw [hasCRLF.eq_3]
    · simp [hasCRLF]
    · intro t hc ht
      exact List.noConfusion ht
  | cons d t =>
    by_cases h : c = '\r' ∧ d = '\n'
    · obtain ⟨hc, hd⟩ := h
      subst hc; subst hd
      rw [hasCRLF.eq_2]
      simp
    · rw [hasCRLF.eq_3]
      · have : ¬(c = '\r' ∧ d = '\n') := h
        by_cases hc : c = '\r'
        · have hd : ¬ d = '\n' := fun hd => this ⟨hc, hd⟩
          simp [hc, hd]
        · simp [hc]
      · intro t' hc ht
        injection ht with h1 _
        exact h ⟨hc, h1⟩

theorem splitCRLF_cons_guard (c : Char) (rest : List Char)
    (h : ¬(c = '\r' ∧ rest.head? = some '\n')) :
    splitCRLF (c :: rest) =
      match splitCRLF rest with
      | ([], r) => ([], c :: r)
      | (l :: ls, r) => ((c :: l) :: ls, r) := by
  rw [splitCRLF.eq_3]
  intro t hc ht
  exact h ⟨hc, by rw [ht]; rfl⟩

theorem splitCRLF_join : ∀ s : List Char,
    joinCRLF (splitCRLF s).1 ++ (splitCRLF s).2 = s := by
  intro s
  induction s using splitCRLF.induct with
  | case1 => simp [splitCRLF, joinCRLF]
  | case2 rest ih =>
    rw [splitCRLF.eq_2]
    simp only [joinCRLF, List.map_cons, List.flatten_cons, List.nil_append,
      List.cons_append, List.append_assoc] at ih ⊢
    simp [ih]
  | case3 c rest hg r hs ih =>
    rw [splitCRLF.eq_3 c rest hg, hs]
    rw [hs] at ih
    simpa [joinCRLF] using congrArg (c :: ·) ih
  | case4 c rest hg l ls r hs ih =>
    rw [splitCRLF.eq_3 c rest hg, hs]
    rw [hs] at ih
    simp only [joinCRLF, List.map_cons, List.flatten_cons, List.append_assoc] at ih ⊢
    simpa using congrArg (c :: ·) ih

theorem splitCRLF_rest_noCRLF : ∀ s : List Char,
    hasCRLF (splitCRLF s).2 = false := by
  intro s
  induction s using splitCRLF.induct with
  | case1 => rfl
  | case2 rest ih => rw [splitCRLF.eq_2]; exact ih
  | case3 c rest hg r hs ih =>
    rw [splitCRLF.eq_3 c rest hg, hs]
    rw [hs] at ih
    -- here the whole of `rest` is the carried fragment: r = rest
    have hr : joinCRLF [] ++ r = rest := by
      have := splitCRLF_join rest
      rw [hs] at this
      exact this
    simp only [joinCRLF, List.map_nil, List.flatten_nil, List.nil_append] at hr
    subst hr
    rw [hasCRLF_cons]
    have hhd : ¬(c = '\r' ∧ r.head? = some '\n') := by
      intro ⟨hc, hd⟩
      cases hr2 : r.head? with
      | none => rw [hr2] at hd; exact Option.noConfusion hd
      | some d =>
        rw [hr2] at hd
        injection hd with hd
        cases r with
        | nil => exact Option.noConfusion hr2
        | cons d0 t =>
          injection hr2 with hr2
          exact hg t hc (by rw [hr2, hd])
    simp only [ih, Bool.or_false]
    by_cases hc : c = '\r'
    · have hd : ¬ r.head? = some '\n' := fun hd => hhd ⟨hc, hd⟩
      simp [hc, hd]
    · simp [hc]
  | case4 c rest hg l ls r hs ih =>
    rw [splitCRLF.eq_3 c rest hg, hs]
    rw [hs] at ih
    exact ih

theorem splitCRLF_lines_noCRLF : ∀ s : List Char,
    ∀ l ∈ (splitCRLF s).1, hasCRLF l = false := by
  intro s
  induction s using splitCRLF.induct with
  | case1 => intro l hl; exact absurd hl (by simp [splitCRLF])
  | case2 rest ih =>
    rw [splitCRLF.eq_2]
    intro l hl
    rcases List.mem_cons.1 hl with h | h
    · subst h; rfl
    · exact ih l h
  | case3 c rest hg r hs ih =>
    rw [splitCRLF.eq_3 c rest hg, hs]
    intro l hl
    exact absurd hl (by simp)
  | case4 c rest hg l0 ls r hs ih =>
    rw [splitCRLF.eq_3 c rest hg, hs]
    rw [hs] at ih
    intro l hl
    rcases List.mem_cons.1 hl with h | h
    · subst h
      have hl0 : hasCRLF l0 = false := ih l0 (List.mem_cons_self _ _)
      -- rest begins with the characters of l0 (or with CRLF when l0 = [])
      have hrest : joinCRLF (l0 :: ls) ++ r = rest := by
        have := splitCRLF_join rest
        rw [hs] at this
        exact this
      rw [hasCRLF_cons]
      have hhd : ¬(c = '\r' ∧ l0.head? = some '\n') := by
        intro ⟨hc, hd⟩
        cases l0 with
        | nil => exact Option.noConfusion hd
        | cons d t =>
          injection hd with hd
          subst hd
          simp only [joinCRLF, List.map_cons, List.flatten_cons, List.cons_append,
            List.append_assoc] at hrest
          exact hg _ hc hrest.symm
      simp only [hl0, Bool.or_false]
      by_cases hc : c = '\r'
      · have hd : ¬ l0.head? = some '\n' := fun hd => hhd ⟨hc, hd⟩
        simp [hc, hd]
      · simp [hc]
    · exact ih l (List.mem_cons_of_mem _ h)

theorem splitCRLF_of_noCRLF : ∀ s : List Char, hasCRLF s = false →
    splitCRLF s = ([], s) := by
  intro s
  induction s using splitCRLF.induct with
  | case1 => intro _; rfl
  | case2 rest ih =>
    intro h
    exact absurd h (by rw [hasCRLF.eq_2]; simp)
  | case3 c rest hg r hs ih =>
    intro h
    rw [hasCRLF_cons] at h
    have hr : hasCRLF rest = false := by
      rcases Bool.or_eq_false_iff.1 h with ⟨_, h2⟩
      exact h2
    rw [splitCRLF.eq_3 c rest hg, hs]
    have := ih hr
    rw [hs] at this
    injection this with h1 h2
    rw [h2]
  | case4 c rest hg l ls r hs ih =>
    intro h
    rw [hasCRLF_cons] at h
    have hr : hasCRLF rest = false := by
      rcases Bool.or_eq_false_iff.1 h with ⟨_, h2⟩
      exact h2
    have := ih hr
    rw [hs] at this
    exact absurd this (by simp)

theorem splitCRLF_line_crlf : ∀ (l : List Char), hasCRLF l = false →
    ∀ u : List Char,
    splitCRLF (l ++ '\r' :: '\n' :: u) = (l :: (splitCRLF u).1, (splitCRLF u).2) := by
  intro l
  induction l with
  | nil =>
    intro _ u
    rw [List.nil_append, splitCRLF.eq_2]
  | cons c l' ih =>
    intro h u
    rw [hasCRLF_cons] at h
    rcases Bool.or_eq_false_iff.1 h with ⟨h1, h2⟩
    have hrec := ih h2 u
    rw [List.cons_append]
    rw [splitCRLF_cons_guard]
    · rw [hrec]
    · intro ⟨hc, hd⟩
      cases l' with
      | nil =>
        simp only [List.nil_append, List.head?] at hd
        injection hd with hd
        exact absurd hd (by decide)
      | cons d t =>
        simp only [List.cons_append, List.head?] at hd
        injection hd with hd
        rw [hc, hd] at h1
        simp at h1

theorem splitCRLF_join_left : ∀ (ls : List (List Char)),
    (∀ l ∈ ls, hasCRLF l = false) → ∀ u : List Char,
    splitCRLF (joinCRLF ls ++ u) = (ls ++ (splitCRLF u).1, (splitCRLF u).2) := by
  intro ls
  induction ls with
  | nil => intro _ u; simp [joinCRLF]
  | cons l ls' ih =>
    intro h u
    have hl : hasCRLF l = false := h l (List.mem_cons_self _ _)
    have hls : ∀ l' ∈ ls', hasCRLF l' = false := fun l' hl' => h l' (List.mem_cons_of_mem _ hl')
    simp only [joinCRLF, List.map_cons, List.flatten_cons, List.append_assoc]
    have : l ++ (['\r', '\n'] ++ ((ls'.map (fun l => l ++ ['\r', '\n'])).flatten ++ u))
        = l ++ '\r' :: '\n' :: (joinCRLF ls' ++ u) := by
      simp [joinCRLF]
    rw [this, splitCRLF_line_crlf l hl, ih hls u]
    simp

theorem splitCRLF_append (s t : List Char) :
    splitCRLF (s ++ t) =
      ((splitCRLF s).1 ++ (splitCRLF ((splitCRLF s).2 ++ t)).1,
       (splitCRLF ((splitCRLF s).2 ++ t)).2) := by
  conv_lhs => rw [← splitCRLF_join s]
  rw [List.append_assoc]
  exact splitCRLF_join_left (splitCRLF s).1 (splitCRLF_lines_noCRLF s) _

theorem readerRun_eq_splitCRLF : ∀ (chunks : List (List Char)) (buf : List Char),
    hasCRLF buf = false →
    readerRun buf chunks = splitCRLF (buf ++ chunks.flatten) := by
  intro chunks
  induction chunks with
  | nil =>
    intro buf h
    simp only [readerRun, List.flatten_nil, List.append_nil]
    exact (splitCRLF_of_noCRLF buf h).symm
  | cons ch chunks' ih =>
    intro buf h
    simp only [readerRun, List.flatten_cons]
    have hb2 : hasCRLF (splitCRLF (buf ++ ch)).2 = false := splitCRLF_rest_noCRLF _
    rw [ih _ hb2]
    rw [← List.append_assoc, splitCRLF_append (buf ++ ch) chunks'.flatten]

/-- C1: Frame-reader split invariance.  If the concatenation of the raw
chunks consists of some CRLF-terminated lines (each free of the CRLF
delimiter) followed by one trailing CRLF-free fragment, then feeding the
chunks one at a time through the reader loop of `IRCBot.run` (append to
carry buffer, split on CRLF, keep last fragment) yields exactly those
complete lines in arrival order and ends with exactly that fragment as
the carry buffer — for every chunk-boundary splitting of the same total
byte sequence. -/
theorem C1_frame_reader_split_invariance
    (lines : List (List Char)) (frag : List Char) (chunks : List (List Char))
    (hl : ∀ l ∈ lines, hasCRLF l = false) (hf : hasCRLF frag = false)
    (hc : chunks.flatten = joinCRLF lines ++ frag) :
    readerRun [] chunks = (lines, frag) := by
  rw [readerRun_eq_splitCRLF chunks [] rfl]
  rw [List.nil_append, hc]
  rw [splitCRLF_join_left lines hl frag]
  rw [splitCRLF_of_noCRLF frag hf]
  simp

/-- C1 witness: the two chunks "a\r" and "\nb" split the stream
"a\r\nb" across the CRLF delimiter; the reader still yields the single
complete line "a" and carries the fragment "b". -/
theorem C1_frame_reader_split_invariance_witness :
    readerRun [] [['a', '\r'], ['\n', 'b']] = ([['a']], ['b']) :=
  C1_frame_reader_split_invariance [['a']] ['b'] [['a', '\r'], ['\n', 'b']]
    (by decide) (by decide) (by decide)

/- ── Handshake transition (C2) ──────────────────────────────────────── -/

theorem handshakeStep_characterization (channels : List (List Char)) :
    ∀ lines : List (List Char),
    handshakeStep channels lines =
      (pongsOf (uptoMarker lines) ++
        (if lines.any markerHit then channels.map joinFrame else []),
       lines.any markerHit) := by
  intro lines
  induction lines with
  | nil => rfl
  | cons l ls ih =>
    by_cases hm : markerHit l
    · cases hp : startsPing l <;>
        simp [handshakeStep, uptoMarker, pongsOf, hm, hp]
    · cases hp : startsPing l <;>
        simp [handshakeStep, uptoMarker, pongsOf, hm, hp, ih]

/-- C2 counterexample: in the line "welcome 376" the numeric 376 is a
space-delimited token (the final token), yet the session does not
transition to Ready, because the code tests for the substring " 376 "
with a space on both sides. -/
theorem C2_counterexample :
    claimSpaceTokenHit ( "welcome 376".toList) = true ∧
    (handshakeStep [ "#d0mer".toList] [ "welcome 376".toList]).2 = false := by
  decide

/- ── Keepalive (C3) ─────────────────────────────────────────────────── -/

theorem replaceFirst_ping (l : List Char) (h : startsPing l = true) :
    replaceFirst pingVerb pongVerb l = pongVerb ++ l.drop 4 := by
  cases l with
  | nil => simp [startsPing, pingVerb, List.isPrefixOf] at h
  | cons c rest =>
    simp only [startsPing] at h
    unfold replaceFirst
    rw [if_pos h]
    rfl

/-- C3: Keepalive.  For every inbound line beginning with the probe verb
"PING", the emitted response equals the input with the four leading verb
characters replaced by "PONG" and the remainder unchanged
(`line.replace("PING", "PONG", 1)` on a line with a leading occurrence);
and the very same `pongFrame` is what the Handshaking loop emits first
for such a line and what the Ready loop emits (alone, with no state
change) for such a line. -/
theorem C3_keepalive (l : List Char) (st : BotSt) (now : Int)
    (H : Handlers) (p botNick : List Char) (channels : List (List Char))
    (h : startsPing l = true) :
    replaceFirst pingVerb pongVerb l = pongVerb ++ l.drop 4 ∧
    (handshakeStep channels [l]).1.head? = some (pongFrame l) ∧
    readyLine H p botNick st now l = ([pongFrame l], st) := by
  refine ⟨replaceFirst_ping l h, ?_, ?_⟩
  · by_cases hm : markerHit l <;> simp [handshakeStep, h, hm]
  · unfold readyLine
    rw [if_pos h]

/-- C3 witness at the line "PING :abc" (end-to-end scenario 1 of the
spec): the response is "PONG :abc" in both phases. -/
theorem C3_keepalive_witness :
    replaceFirst pingVerb pongVerb ( "PING :abc".toList) =
      pongVerb ++ ( "PING :abc".toList).drop 4 ∧
    (handshakeStep [ "#d0mer".toList] [ "PING :abc".toList]).1.head? =
      some (pongFrame ( "PING :abc".toList)) ∧
    readyLine trivialHandlers ( "%".toList) ( "le0".toList) (initialState 0) 0
      ( "PING :abc".toList) = ([pongFrame ( "PING :abc".toList)], initialState 0) :=
  C3_keepalive ( "PING :abc".toList) (initialState 0) 0 trivialHandlers
    ( "%".toList) ( "le0".toList) [ "#d0mer".toList] (by decide)

/- ── Rate limiter (C4) ──────────────────────────────────────────────── -/

theorem alGet_alSet_self {α : Type} (m : List (List Char × α)) (k : List Char) (v : α) :
    alGet (alSet m k v) k = some v := by
  simp [alGet, alSet]

/-- C4: Rate limiter.  `_check_rate_limit` compares `now` with the
identity's recorded timestamp (0 when absent): below the 2-second
cooldown it rejects and records nothing; otherwise it records `now` for
the identity (before any handler can run, since the recording happens
inside the admission call itself) and accepts.  Hence for a fresh
identity and a first call past the cooldown, a second call less than 2
apart yields (true, false) and one at least 2 apart yields
(true, true). -/
theorem C4_rate_limiter (m : List (List Char × Int)) (nick : List Char) (t1 t2 : Int)
    (hfresh : alGet m (lowerStr nick) = none) (h1 : 2 ≤ t1) :
    (check_rate_limit m t1 nick).1 = true ∧
    (check_rate_limit m t1 nick).2 = alSet m (lowerStr nick) t1 ∧
    (t2 - t1 < 2 →
      (check_rate_limit (check_rate_limit m t1 nick).2 t2 nick).1 = false ∧
      (check_rate_limit (check_rate_limit m t1 nick).2 t2 nick).2 =
        (check_rate_limit m t1 nick).2) ∧
    (2 ≤ t2 - t1 →
      (check_rate_limit (check_rate_limit m t1 nick).2 t2 nick).1 = true ∧
      (check_rate_limit (check_rate_limit m t1 nick).2 t2 nick).2 =
        alSet (check_rate_limit m t1 nick).2 (lowerStr nick) t2) := by
  have hc1 : check_rate_limit m t1 nick = (true, alSet m (lowerStr nick) t1) := by
    unfold check_rate_limit
    rw [hfresh]
    simp only [Option.getD_none]
    rw [if_neg (by omega)]
  refine ⟨by rw [hc1], by rw [hc1], ?_, ?_⟩
  · intro hlt
    rw [hc1]
    unfold check_rate_limit
    rw [alGet_alSet_self]
    simp only [Option.getD_some]
    rw [if_pos (by omega)]
    exact ⟨rfl, rfl⟩
  · intro hge
    rw [hc1]
    unfold check_rate_limit
    rw [alGet_alSet_self]
    simp only [Option.getD_some]
    rw [if_neg (by omega)]
    exact ⟨rfl, rfl⟩

/-- C4 witness: fresh identity "alice", first call at t=5 admitted; a
second call at t=6 (less than 2 later) is rejected without an update,
and one at t=7 (exactly 2 later) is admitted. -/
theorem C4_rate_limiter_witness :
    ((check_rate_limit [] 5 ( "alice".toList)).1 = true ∧
     (check_rate_limit (check_rate_limit [] 5 ( "alice".toList)).2 6 ( "alice".toList)).1
       = false) ∧
    (check_rate_limit (check_rate_limit [] 5 ( "alice".toList)).2 7 ( "alice".toList)).1
      = true := by
  have h6 := C4_rate_limiter [] ( "alice".toList) 5 6 (by decide) (by decide)
  have h7 := C4_rate_limiter [] ( "alice".toList) 5 7 (by decide) (by decide)
  exact ⟨⟨h6.1, (h6.2.2.1 (by decide)).1⟩, (h7.2.2.2 (by decide)).1⟩

/- ── Outbound sanitizer and frame-shape lemmas ──────────────────────── -/

theorem sanitize_eq_filter (x : List Char) :
    Sanitizer.sanitize_irc_output x = x.filter (fun c => !(c == '\r' || c == '\n')) := by
  induction x with
  | nil => rfl
  | cons c rest ih =>
    rw [List.filter_cons]
    by_cases h : c = '\r' ∨ c = '\n'
    · have hs : Sanitizer.sanitize_irc_output (c :: rest) =
          Sanitizer.sanitize_irc_output rest := by
        show (if c = '\r' ∨ c = '\n' then Sanitizer.sanitize_irc_output rest
              else c :: Sanitizer.sanitize_irc_output rest) = _
        rw [if_pos h]
      have hb : (!(c == '\r' || c == '\n')) = false := by
        rcases h with h | h <;> subst h <;> rfl
      rw [hs, hb, ih]
      rfl
    · have hs : Sanitizer.sanitize_irc_output (c :: rest) =
          c :: Sanitizer.sanitize_irc_output rest := by
        show (if c = '\r' ∨ c = '\n' then Sanitizer.sanitize_irc_output rest
              else c :: Sanitizer.sanitize_irc_output rest) = _
        rw [if_neg h]
      push_neg at h
      have hb : (!(c == '\r' || c == '\n')) = true := by
        have h1 : (c == '\r') = false := beq_eq_false_iff_ne.2 h.1
        have h2 : (c == '\n') = false := beq_eq_false_iff_ne.2 h.2
        rw [h1, h2]
        rfl
      rw [hs, hb, ih]
      rfl

theorem sanitize_append (a b : List Char) :
    Sanitizer.sanitize_irc_output (a ++ b) =
      Sanitizer.sanitize_irc_output a ++ Sanitizer.sanitize_irc_output b := by
  simp [sanitize_eq_filter, List.filter_append]

theorem cleanFrame_sendRaw (m : List Char) : cleanFrame (sendRawFrame m) = true := by
  simp only [cleanFrame, sendRawFrame, sanitize_eq_filter, List.all_eq_true]
  intro c hc
  exact (List.mem_filter.1 hc).2

theorem hasInfix_of_middle (pat a b : List Char) (h : pat ≠ []) :
    hasInfix pat (a ++ pat ++ b) = true := by
  induction a with
  | nil =>
    cases pat with
    | nil => exact absurd rfl h
    | cons c cs =>
      rw [List.nil_append, List.cons_append, hasInfix]
      have hp : (c :: cs).isPrefixOf (c :: (cs ++ b)) = true := by
        rw [List.isPrefixOf_iff_prefix, ← List.cons_append]
        exact List.prefix_append (c :: cs) b
      rw [hp, Bool.true_or]
  | cons x a' ih =>
    rw [List.cons_append, List.cons_append, hasInfix, ih, Bool.or_true]

theorem hasInfix_append_left (pat u v : List Char) (h : hasInfix pat v = true) :
    hasInfix pat (u ++ v) = true := by
  induction u with
  | nil => exact h
  | cons x u' ih => rw [List.cons_append, hasInfix, ih, Bool.or_true]

theorem errorStyled_sendMessage (ch t : List Char) :
    errorStyled (sendMessageFrame ch (mkError t)) = true := by
  have hm : Sanitizer.sanitize_irc_output errMarker = errMarker := by decide
  unfold errorStyled sendMessageFrame sendRawFrame mkError
  simp only [sanitize_append, hm, List.append_assoc]
  repeat
    first
      | exact hasInfix_of_middle errMarker [] _ (by decide)
      | apply hasInfix_append_left

/- ── Dispatch case analysis ─────────────────────────────────────────── -/

theorem dispatchCmd_user_last_cmd (H : Handlers) (p : List Char) (st : BotSt)
    (now : Int) (channel nick command : List Char) (args : List (List Char)) :
    (dispatchCmd H p st now channel nick command args).2.user_last_cmd =
      st.user_last_cmd := by
  unfold dispatchCmd
  cases hc : parseCommand p command
  all_goals
    try simp only [cmdWeather, cmdForecast, cmdUrban, cmdTime, cmdCoin, cmdRoll,
      cmdEightball, cmdRps, cmdFact, cmdSeen, cmdAddquote, cmdQuote, cmdUptime,
      cmdPing, cmdCalc, cmdHash, cmdBase64, cmdReverse, cmdMock, cmdHelp]
  all_goals repeat' split
  all_goals rfl

theorem dispatchCmd_seen_users (H : Handlers) (p : List Char) (st : BotSt)
    (now : Int) (channel nick command : List Char) (args : List (List Char)) :
    (dispatchCmd H p st now channel nick command args).2.seen_users =
      st.seen_users := by
  unfold dispatchCmd
  cases hc : parseCommand p command
  all_goals
    try simp only [cmdWeather, cmdForecast, cmdUrban, cmdTime, cmdCoin, cmdRoll,
      cmdEightball, cmdRps, cmdFact, cmdSeen, cmdAddquote, cmdQuote, cmdUptime,
      cmdPing, cmdCalc, cmdHash, cmdBase64, cmdReverse, cmdMock, cmdHelp]
  all_goals repeat' split
  all_goals rfl

theorem dispatchCmd_frames (H : Handlers) (p : List Char) (st : BotSt)
    (now : Int) (channel nick command : List Char) (args : List (List Char)) :
    ∀ f ∈ (dispatchCmd H p st now channel nick command args).1,
      ∃ m, f = sendMessageFrame channel m := by
  unfold dispatchCmd
  cases hc : parseCommand p command
  all_goals
    try simp only [cmdWeather, cmdForecast, cmdUrban, cmdTime, cmdCoin, cmdRoll,
      cmdEightball, cmdRps, cmdFact, cmdSeen, cmdAddquote, cmdQuote, cmdUptime,
      cmdPing, cmdCalc, cmdHash, cmdBase64, cmdReverse, cmdMock, cmdHelp]
  all_goals repeat' split
  all_goals intro f hf
  all_goals try dsimp only at hf
  all_goals first
    | exact absurd hf (List.not_mem_nil f)
    | (rw [List.mem_singleton] at hf; exact ⟨_, hf⟩)
    | (obtain ⟨x, -, rfl⟩ := List.mem_map.1 hf; exact ⟨x, rfl⟩)

theorem dispatchCmd_validation (H : Handlers) (p : List Char) (st : BotSt)
    (now : Int) (channel nick command : List Char) (args : List (List Char))
    (e : List Char) (h : validationErrorCmd p command args = some e) :
    dispatchCmd H p st now channel nick command args =
      ([sendMessageFrame channel (mkError e)], st) := by
  unfold dispatchCmd
  unfold validationErrorCmd at h
  cases hc : parseCommand p command <;> rw [hc] at h
  all_goals
    try simp only [cmdWeather, cmdForecast, cmdUrban, cmdTime, cmdCoin, cmdRoll,
      cmdEightball, cmdRps, cmdFact, cmdSeen, cmdAddquote, cmdQuote, cmdUptime,
      cmdPing, cmdCalc, cmdHash, cmdBase64, cmdReverse, cmdMock, cmdHelp] at h
  all_goals
    try simp only [cmdWeather, cmdForecast, cmdUrban, cmdTime, cmdCoin, cmdRoll,
      cmdEightball, cmdRps, cmdFact, cmdSeen, cmdAddquote, cmdQuote, cmdUptime,
      cmdPing, cmdCalc, cmdHash, cmdBase64, cmdReverse, cmdMock, cmdHelp]
  all_goals first
    | (injection h)
    | (split_ifs at h ⊢ <;>
        first
          | (injection h with he; subst he; rfl)
          | (injection h)
          | rfl)

theorem handleCommand_admitted (H : Handlers) (p : List Char) (st : BotSt)
    (now : Int) (channel nick message : List Char)
    (h : 2 ≤ now - (alGet st.user_last_cmd (lowerStr nick)).getD 0) :
    handleCommand H p st now channel nick message =
      handleCommand.dispatchParts H p
        { st with user_last_cmd := alSet st.user_last_cmd (lowerStr nick) now }
        now channel nick (splitWs message) := by
  have hc : check_rate_limit st.user_last_cmd now nick =
      (true, alSet st.user_last_cmd (lowerStr nick) now) := by
    unfold check_rate_limit
    rw [if_neg (by omega)]
  unfold handleCommand
  rw [hc]
  rfl

theorem handleCommand_user_last_cmd (H : Handlers) (p : List Char) (st : BotSt)
    (now : Int) (channel nick message : List Char)
    (h : 2 ≤ now - (alGet st.user_last_cmd (lowerStr nick)).getD 0) :
    (handleCommand H p st now channel nick message).2.user_last_cmd =
      alSet st.user_last_cmd (lowerStr nick) now := by
  rw [handleCommand_admitted H p st now channel nick message h]
  cases hsp : splitWs message with
  | nil => rfl
  | cons c0 args =>
    unfold handleCommand.dispatchParts
    exact dispatchCmd_user_last_cmd ..

theorem handleCommand_frames (H : Handlers) (p : List Char) (st : BotSt)
    (now : Int) (channel nick message : List Char) :
    ∀ f ∈ (handleCommand H p st now channel nick message).1,
      ∃ m, f = sendMessageFrame channel m := by
  unfold handleCommand
  split
  · cases hsp : splitWs message with
    | nil =>
      intro f hf
      exact absurd hf (List.not_mem_nil f)
    | cons c0 args =>
      intro f hf
      exact dispatchCmd_frames _ _ _ _ _ _ _ _ f hf
  · intro f hf
    exact absurd hf (List.not_mem_nil f)

theorem readyLine_frames (H : Handlers) (p botNick : List Char) (st : BotSt)
    (now : Int) (l : List Char) :
    ∀ f ∈ (readyLine H p botNick st now l).1,
      (startsPing l = true ∧ f = pongFrame l) ∨ ∃ ch m, f = sendMessageFrame ch m := by
  unfold readyLine
  repeat' split
  all_goals intro f hf
  all_goals first
    | (rw [List.mem_singleton] at hf; exact Or.inl ⟨by assumption, hf⟩)
    | exact absurd hf (List.not_mem_nil f)
    | (obtain ⟨m, rfl⟩ := handleCommand_frames _ _ _ _ _ _ _ f hf
       exact Or.inr ⟨_, m, rfl⟩)

/-- C9: For every admitted trigger message, the identity's rate-limit
timestamp is recorded by `_check_rate_limit` before the command name is
examined, so after `handle_command` the map carries the admission time
`now` for the lower-cased identity, whatever the message was — including
unknown command names and messages that later fail validation. -/
theorem C9_admission_always_records_timestamp (H : Handlers) (p : List Char)
    (st : BotSt) (now : Int) (channel nick message : List Char)
    (h : 2 ≤ now - (alGet st.user_last_cmd (lowerStr nick)).getD 0) :
    (handleCommand H p st now channel nick message).2.user_last_cmd =
      alSet st.user_last_cmd (lowerStr nick) now :=
  handleCommand_user_last_cmd H p st now channel nick message h

/-- C9 witness: an unknown command name ("%nosuchcommand") from a fresh
identity still records the admission timestamp. -/
theorem C9_admission_always_records_timestamp_witness :
    (handleCommand trivialHandlers ( "%".toList) (initialState 0) 5
        ( "#chan".toList) ( "alice".toList) ( "%nosuchcommand".toList)).2.user_last_cmd =
      alSet (initialState 0).user_last_cmd (lowerStr ( "alice".toList)) 5 :=
  C9_admission_always_records_timestamp trivialHandlers ( "%".toList)
    (initialState 0) 5 ( "#chan".toList) ( "alice".toList)
    ( "%nosuchcommand".toList) (by decide)

/- ── Command validation faults (C5) ─────────────────────────────────── -/

theorem handleCommand_validation (H : Handlers) (p : List Char) (st : BotSt)
    (now : Int) (channel nick message e : List Char)
    (hadm : 2 ≤ now - (alGet st.user_last_cmd (lowerStr nick)).getD 0)
    (hval : validationError p message = some e) :
    handleCommand H p st now channel nick message =
      ([sendMessageFrame channel (mkError e)],
       { st with user_last_cmd := alSet st.user_last_cmd (lowerStr nick) now }) := by
  rw [handleCommand_admitted H p st now channel nick message hadm]
  unfold validationError at hval
  cases hsp : splitWs message with
  | nil =>
    rw [hsp] at hval
    simp at hval
  | cons c0 args =>
    rw [hsp] at hval
    simp only [] at hval
    unfold handleCommand.dispatchParts
    exact dispatchCmd_validation _ _ _ _ _ _ _ _ _ hval

/-- C5 counterexample: the claim asserts that a validation fault leaves
the rate-limit map unchanged, but `_check_rate_limit` records the
admission timestamp before dispatch: after the invalid invocation
"%seen" (missing argument) by a fresh identity "alice" at t = 5, the
rate-limit map carries alice ↦ 5 although it held nothing before. -/
theorem C5_counterexample :
    alGet ((handleCommand trivialHandlers ( "%".toList) (initialState 0) 5
        ( "#chan".toList) ( "alice".toList) ( "%seen".toList)).2.user_last_cmd)
      ( "alice".toList) = some 5 ∧
    alGet ((initialState 0).user_last_cmd) ( "alice".toList) = none ∧
    validationError ( "%".toList) ( "%seen".toList) =
      some ( "Usage: %seen <nick>".toList) := by
  decide

/-- C5 (amended): an admitted command invocation that fails router-level
validation (missing required argument, or argument rejected by the
Sanitizer) emits exactly one reply frame, an error-styled one, aborts
the command, and leaves the seen map and the quote list unchanged; the
rate-limit map however does change — it carries the admission timestamp
that `_check_rate_limit` recorded before dispatch. -/
theorem C5_validation_fault (H : Handlers) (p : List Char) (st : BotSt)
    (now : Int) (channel nick message e : List Char)
    (hadm : 2 ≤ now - (alGet st.user_last_cmd (lowerStr nick)).getD 0)
    (hval : validationError p message = some e) :
    handleCommand H p st now channel nick message =
      ([sendMessageFrame channel (mkError e)],
       { st with user_last_cmd := alSet st.user_last_cmd (lowerStr nick) now }) ∧
    errorStyled (sendMessageFrame channel (mkError e)) = true ∧
    (handleCommand H p st now channel nick message).2.seen_users = st.seen_users ∧
    (handleCommand H p st now channel nick message).2.quotes = st.quotes := by
  have h1 := handleCommand_validation H p st now channel nick message e hadm hval
  refine ⟨h1, errorStyled_sendMessage channel e, ?_, ?_⟩ <;> rw [h1]

/-- C5 witness at the concrete fault "%seen" (missing argument) from the
fresh identity "alice" at t = 5. -/
theorem C5_validation_fault_witness :
    handleCommand trivialHandlers ( "%".toList) (initialState 0) 5
        ( "#chan".toList) ( "alice".toList) ( "%seen".toList) =
      ([sendMessageFrame ( "#chan".toList) (mkError ( "Usage: %seen <nick>".toList))],
       { initialState 0 with
          user_last_cmd := alSet (initialState 0).user_last_cmd
            (lowerStr ( "alice".toList)) 5 }) ∧
    errorStyled (sendMessageFrame ( "#chan".toList)
      (mkError ( "Usage: %seen <nick>".toList))) = true ∧
    (handleCommand trivialHandlers ( "%".toList) (initialState 0) 5
        ( "#chan".toList) ( "alice".toList) ( "%seen".toList)).2.seen_users =
      (initialState 0).seen_users ∧
    (handleCommand trivialHandlers ( "%".toList) (initialState 0) 5
        ( "#chan".toList) ( "alice".toList) ( "%seen".toList)).2.quotes =
      (initialState 0).quotes :=
  C5_validation_fault trivialHandlers ( "%".toList) (initialState 0) 5
    ( "#chan".toList) ( "alice".toList) ( "%seen".toList)
    ( "Usage: %seen <nick>".toList) (by decide) (by decide)

/- ── C2 (amended) and C7 ────────────────────────────────────────────── -/

theorem pongFrame_head (l : List Char) (h : startsPing l = true) :
    ∃ t, pongFrame l = 'P' :: t := by
  unfold pongFrame sendRawFrame
  rw [replaceFirst_ping l h, sanitize_append]
  have hv : Sanitizer.sanitize_irc_output pongVerb = 'P' :: "ONG".toList := by decide
  rw [hv]
  exact ⟨_, rfl⟩

theorem sendMessageFrame_head (ch m : List Char) :
    ∃ t, sendMessageFrame ch m = 'P' :: t := by
  unfold sendMessageFrame sendRawFrame
  rw [sanitize_append, sanitize_append, sanitize_append]
  have h8 : Sanitizer.sanitize_irc_output ( "PRIVMSG ".toList) =
      'P' :: "RIVMSG ".toList := by decide
  rw [h8]
  exact ⟨_, rfl⟩

theorem isPrefixOf_join_P (t : List Char) :
    (( "JOIN ".toList).isPrefixOf ('P' :: t)) = false := rfl

/-- C2 (amended): the session transitions from Handshaking to Ready if
and only if an examined inbound line contains the substring " 376 " or
" 422 " — the numeric completion code delimited by a space on BOTH
sides (a bare token at the start or end of the line does not match the
code's substring test, see the counterexample); and the handshake batch
output is exactly the PONG answers of the lines up to and including the
first marker line, followed — exactly at the transition, exactly once —
by one JOIN frame per configured channel in configured order.  The
steady-state loop never emits a JOIN frame. -/
theorem C2_handshake_transition (channels : List (List Char))
    (lines : List (List Char)) (H : Handlers) (p botNick : List Char)
    (st : BotSt) (now : Int) (l : List Char) :
    handshakeStep channels lines =
      (pongsOf (uptoMarker lines) ++
        (if lines.any markerHit then channels.map joinFrame else []),
       lines.any markerHit) ∧
    (∀ f ∈ (readyLine H p botNick st now l).1,
      (( "JOIN ".toList).isPrefixOf f) = false) := by
  refine ⟨handshakeStep_characterization channels lines, ?_⟩
  intro f hf
  rcases readyLine_frames H p botNick st now l f hf with ⟨hping, rfl⟩ | ⟨ch, m, rfl⟩
  · obtain ⟨t, ht⟩ := pongFrame_head l hping
    rw [ht]
    exact isPrefixOf_join_P t
  · obtain ⟨t, ht⟩ := sendMessageFrame_head ch m
    rw [ht]
    exact isPrefixOf_join_P t

theorem handshakeStep_clean (channels : List (List Char))
    (lines : List (List Char)) :
    ∀ f ∈ (handshakeStep channels lines).1, cleanFrame f = true := by
  rw [handshakeStep_characterization]
  intro f hf
  rcases List.mem_append.1 hf with h | h
  · obtain ⟨l, -, hl⟩ := List.mem_filterMap.1 h
    split at hl
    · injection hl with hl
      rw [← hl]
      exact cleanFrame_sendRaw _
    · exact absurd hl (by simp)
  · split at h
    · obtain ⟨ch, -, rfl⟩ := List.mem_map.1 h
      exact cleanFrame_sendRaw _
    · exact absurd h (List.not_mem_nil f)

theorem readyLine_clean (H : Handlers) (p botNick : List Char) (st : BotSt)
    (now : Int) (l : List Char) :
    ∀ f ∈ (readyLine H p botNick st now l).1, cleanFrame f = true := by
  intro f hf
  rcases readyLine_frames H p botNick st now l f hf with ⟨-, rfl⟩ | ⟨ch, m, rfl⟩
  · exact cleanFrame_sendRaw _
  · exact cleanFrame_sendRaw _

theorem connectFrames_clean (cfg : Config) :
    ∀ f ∈ connectFrames cfg, cleanFrame f = true := by
  intro f hf
  unfold connectFrames at hf
  rcases List.mem_append.1 hf with h | h
  · split at h
    · rw [List.mem_singleton] at h
      rw [h]
      exact cleanFrame_sendRaw _
    · exact absurd h (List.not_mem_nil f)
  · rcases List.mem_cons.1 h with rfl | h2
    · exact cleanFrame_sendRaw _
    · rcases List.mem_cons.1 h2 with rfl | h3
      · exact cleanFrame_sendRaw _
      · exact absurd h3 (List.not_mem_nil f)

/-- C7: Outbound sanitization.  `sanitize_irc_output` returns its input
with exactly the CR and LF characters removed — every other character is
kept, in order (so it never truncates) — and every frame the model hands
to the transport carries no CR or LF: the registration frames of
`connect` (PASS/NICK/USER), every frame of the handshake loop (PONG and
JOIN), every frame of the steady-state loop (PONG and all PRIVMSG
replies of the command router), and the QUIT frame, since every one of
these paths goes through `send_raw`, which applies the sanitizer before
transmission. -/
theorem C7_outbound_sanitization :
    (∀ x : List Char, Sanitizer.sanitize_irc_output x =
        x.filter (fun c => !(c == '\r' || c == '\n'))) ∧
    (∀ cfg : Config, ∀ f ∈ connectFrames cfg, cleanFrame f = true) ∧
    (∀ (channels lines : List (List Char)),
      ∀ f ∈ (handshakeStep channels lines).1, cleanFrame f = true) ∧
    (∀ (H : Handlers) (p botNick : List Char) (st : BotSt) (now : Int)
        (l : List Char),
      ∀ f ∈ (readyLine H p botNick st now l).1, cleanFrame f = true) ∧
    cleanFrame quitFrame = true :=
  ⟨sanitize_eq_filter, connectFrames_clean, handshakeStep_clean,
   readyLine_clean, cleanFrame_sendRaw _⟩

/- ── Seen records (C6, C8) ──────────────────────────────────────────── -/

theorem hasInfix_cons (pat : List Char) (c : Char) (v : List Char)
    (h : hasInfix pat v = true) : hasInfix pat (c :: v) = true := by
  rw [hasInfix, h, Bool.or_true]

theorem hasInfix_here (pat b : List Char) : hasInfix pat (pat ++ b) = true := by
  cases pat with
  | nil =>
    cases b with
    | nil => rfl
    | cons c bs => rfl
  | cons c cs =>
    rw [List.cons_append, hasInfix]
    have hp : (c :: cs).isPrefixOf (c :: (cs ++ b)) = true := by
      rw [List.isPrefixOf_iff_prefix, ← List.cons_append]
      exact List.prefix_append (c :: cs) b
    rw [hp, Bool.true_or]

theorem parse_not_ping (line X C T : List Char)
    (h : parsePrivmsg line = some (X, C, T)) : startsPing line = false := by
  cases line with
  | nil => exact absurd h (by simp [parsePrivmsg])
  | cons c rest =>
    unfold parsePrivmsg at h
    dsimp only at h
    by_cases hc : c = ':'
    · subst hc
      rfl
    · rw [if_neg hc] at h
      exact absurd h (by simp)

theorem find?_filter_ne {α : Type} (m : List (List Char × α)) (k k' : List Char)
    (h : k' ≠ k) :
    (m.filter (fun e => !(e.1 == k))).find? (fun e => e.1 == k') =
      m.find? (fun e => e.1 == k') := by
  induction m with
  | nil => rfl
  | cons e rest ih =>
    by_cases hek : e.1 = k
    · have h1 : (!(e.1 == k)) = false := by rw [hek]; simp
      have h2 : (e.1 == k') = false := by
        rw [hek]
        exact beq_eq_false_iff_ne.2 (fun hh => h hh.symm)
      rw [List.filter_cons, h1, if_neg Bool.false_ne_true, List.find?_cons, h2]
      exact ih
    · have h1 : (!(e.1 == k)) = true := by
        rw [beq_eq_false_iff_ne.2 hek]
        rfl
      rw [List.filter_cons, h1, if_pos rfl, List.find?_cons, List.find?_cons]
      cases hk' : (e.1 == k') with
      | true => rfl
      | false => exact ih

theorem alGet_alSet {α : Type} (m : List (List Char × α)) (k : List Char) (v : α)
    (k' : List Char) :
    alGet (alSet m k v) k' = if k' = k then some v else alGet m k' := by
  unfold alGet alSet
  by_cases h : k' = k
  · subst h
    rw [if_pos rfl, List.find?_cons]
    rw [show ((k', v).1 == k') = true from beq_self_eq_true k']
    rfl
  · rw [if_neg h, List.find?_cons]
    rw [show ((k, v).1 == k') = false from beq_eq_false_iff_ne.2 (fun hh => h hh.symm)]
    rw [find?_filter_ne m k k' h]

theorem handleCommand_seen_users (H : Handlers) (p : List Char) (st : BotSt)
    (now : Int) (channel nick message : List Char) :
    (handleCommand H p st now channel nick message).2.seen_users =
      st.seen_users := by
  unfold handleCommand
  split
  · cases hsp : splitWs message with
    | nil => rfl
    | cons c0 args => exact dispatchCmd_seen_users ..
  · rfl

theorem readyLine_seen_of_parse (H : Handlers) (p botNick : List Char)
    (st : BotSt) (now : Int) (line X C T : List Char)
    (hparse : parsePrivmsg line = some (X, C, T)) (hself : X ≠ botNick) :
    (readyLine H p botNick st now line).2.seen_users =
      alSet st.seen_users (lowerStr X)
        { nick := X, channel := C, message := T.take 100, time := now } := by
  unfold readyLine
  rw [if_neg (by simp [parse_not_ping line X C T hparse])]
  rw [hparse]
  dsimp only
  rw [if_neg hself]
  split
  · rw [handleCommand_seen_users]
    rfl
  · rfl

/-- C6: Seen-record postcondition.  If the steady-state loop parses an
inbound line as a chat-delivery frame from identity X in channel C with
text T (the regex match of `IRCBot.run`), and X is not the bot itself,
then afterwards — whatever else the line triggered, since the command
router never touches the seen map — a lookup under any case variant `q`
of X finds the overwritten record with channel C, the text truncated to
at most 100 characters (a prefix of T), and timestamp `now`, which is no
later than the lookup time; and the `get_seen` reply rendered at lookup
time contains that channel and that stored text verbatim. -/
theorem C6_seen_record (H : Handlers) (p botNick : List Char) (st : BotSt)
    (now tLook : Int) (line X C T q : List Char)
    (hparse : parsePrivmsg line = some (X, C, T))
    (hself : X ≠ botNick)
    (hq : lowerStr q = lowerStr X)
    (htime : now ≤ tLook) :
    alGet (readyLine H p botNick st now line).2.seen_users (lowerStr q) =
      some { nick := X, channel := C, message := T.take 100, time := now } ∧
    (T.take 100).isPrefixOf T = true ∧
    (T.take 100).length ≤ 100 ∧
    now ≤ tLook ∧
    hasInfix C (get_seen (readyLine H p botNick st now line).2 tLook q) = true ∧
    hasInfix (T.take 100)
      (get_seen (readyLine H p botNick st now line).2 tLook q) = true := by
  have hseen := readyLine_seen_of_parse H p botNick st now line X C T hparse hself
  have hget : alGet (readyLine H p botNick st now line).2.seen_users (lowerStr q) =
      some { nick := X, channel := C, message := T.take 100, time := now } := by
    rw [hseen, hq, alGet_alSet, if_pos rfl]
  refine ⟨hget, ?_, ?_, htime, ?_, ?_⟩
  · rw [List.isPrefixOf_iff_prefix]
    exact List.take_prefix 100 T
  · rw [List.length_take]
    exact min_le_left _ _
  · unfold get_seen
    rw [hget]
    dsimp only
    simp only [mkHeader, mkArrowLine, mkLabel, List.append_assoc, List.cons_append]
    repeat
      first
        | exact hasInfix_here C _
        | apply hasInfix_append_left
        | apply hasInfix_cons
  · unfold get_seen
    rw [hget]
    dsimp only
    simp only [mkHeader, mkArrowLine, mkLabel, List.append_assoc, List.cons_append]
    repeat
      first
        | exact hasInfix_here (T.take 100) _
        | apply hasInfix_append_left
        | apply hasInfix_cons

/-- C6 witness: the frame ":Alice!u@h PRIVMSG #chan :hello there" from
fresh state at t = 3, looked up at t = 7 under the case variant
"ALICE". -/
theorem C6_seen_record_witness :
    alGet (readyLine trivialHandlers ( "%".toList) ( "le0".toList)
        (initialState 0) 3 ( ":Alice!u@h PRIVMSG #chan :hello there".toList)).2.seen_users
      (lowerStr ( "ALICE".toList)) =
      some { nick := "Alice".toList, channel := "#chan".toList,
             message := ( "hello there".toList).take 100, time := 3 } ∧
    (( "hello there".toList).take 100).isPrefixOf ( "hello there".toList) = true ∧
    (( "hello there".toList).take 100).length ≤ 100 ∧
    (3 : Int) ≤ 7 ∧
    hasInfix ( "#chan".toList)
      (get_seen (readyLine trivialHandlers ( "%".toList) ( "le0".toList)
        (initialState 0) 3 ( ":Alice!u@h PRIVMSG #chan :hello there".toList)).2 7
        ( "ALICE".toList)) = true ∧
    hasInfix (( "hello there".toList).take 100)
      (get_seen (readyLine trivialHandlers ( "%".toList) ( "le0".toList)
        (initialState 0) 3 ( ":Alice!u@h PRIVMSG #chan :hello there".toList)).2 7
        ( "ALICE".toList)) = true :=
  C6_seen_record trivialHandlers ( "%".toList) ( "le0".toList) (initialState 0)
    3 7 ( ":Alice!u@h PRIVMSG #chan :hello there".toList) ( "Alice".toList)
    ( "#chan".toList) ( "hello there".toList) ( "ALICE".toList)
    (by decide) (by decide) (by decide) (by decide)

/-- C8 counterexample: for "%seen bob" with no record for bob, exactly
one reply frame is emitted, but it does not contain the substring
"haven't seen" — the code writes "Haven't seen" with a capital H. -/
theorem C8_counterexample :
    (handleCommand trivialHandlers ( "%".toList) (initialState 0) 5
        ( "#chan".toList) ( "alice".toList) ( "%seen bob".toList)).1.length = 1 ∧
    ((handleCommand trivialHandlers ( "%".toList) (initialState 0) 5
        ( "#chan".toList) ( "alice".toList) ( "%seen bob".toList)).1).all
      (fun f => !(hasInfix ( "haven't seen".toList) f)) = true := by
  decide

/-- C8 (amended): for the admitted command "%seen bob" when no seen
record exists for bob, the bot emits exactly one reply frame, an
error-styled one, whose text contains the substring "Haven't seen"
(capital H, as written by `get_seen`). -/
theorem C8_seen_miss (H : Handlers) (st : BotSt) (now : Int) (ch sender : List Char)
    (hmiss : alGet st.seen_users ( "bob".toList) = none)
    (hadm : 2 ≤ now - (alGet st.user_last_cmd (lowerStr sender)).getD 0) :
    (handleCommand H ( "%".toList) st now ch sender ( "%seen bob".toList)).1 =
      [sendMessageFrame ch (mkError ( "Haven't seen bob yet".toList))] ∧
    errorStyled (sendMessageFrame ch (mkError ( "Haven't seen bob yet".toList))) = true ∧
    hasInfix ( "Haven't seen".toList)
      (sendMessageFrame ch (mkError ( "Haven't seen bob yet".toList))) = true := by
  refine ⟨?_, errorStyled_sendMessage ch _, ?_⟩
  · rw [handleCommand_admitted H ( "%".toList) st now ch sender
      ( "%seen bob".toList) hadm]
    rw [show splitWs ( "%seen bob".toList) = [ "%seen".toList, "bob".toList] from
      by decide]
    unfold handleCommand.dispatchParts
    dsimp only
    rw [show lowerStr ( "%seen".toList) = "%seen".toList from by decide]
    unfold dispatchCmd
    rw [show parseCommand ( "%".toList) ( "%seen".toList) = Cmd.seen from by decide]
    dsimp only
    unfold cmdSeen
    rw [if_neg (show ¬([ "bob".toList] = []) from by decide)]
    rw [if_neg (show ¬((Sanitizer.sanitize_nick ([ "bob".toList].headD [])).isNone
      = true) from by decide)]
    dsimp only
    rw [show (Sanitizer.sanitize_nick ([ "bob".toList].headD [])).getD [] =
      "bob".toList from by decide]
    unfold get_seen
    rw [show lowerStr ( "bob".toList) = "bob".toList from by decide]
    rw [show ({ st with user_last_cmd := alSet st.user_last_cmd (lowerStr sender) now }
      : BotSt).seen_users = st.seen_users from rfl]
    rw [hmiss]
    unfold splitSend
    rw [show splitNL (mkError ( "Haven't seen ".toList ++ "bob".toList ++
      " yet".toList)) = [mkError ( "Haven't seen bob yet".toList)] from by decide]
    rfl
  · unfold sendMessageFrame sendRawFrame
    rw [sanitize_append]
    apply hasInfix_append_left
    decide

/-- C8 witness at the fresh state: "%seen bob" from "alice" at t = 5. -/
theorem C8_seen_miss_witness :
    (handleCommand trivialHandlers ( "%".toList) (initialState 0) 5
        ( "#chan".toList) ( "alice".toList) ( "%seen bob".toList)).1 =
      [sendMessageFrame ( "#chan".toList)
        (mkError ( "Haven't seen bob yet".toList))] ∧
    errorStyled (sendMessageFrame ( "#chan".toList)
      (mkError ( "Haven't seen bob yet".toList))) = true ∧
    hasInfix ( "Haven't seen".toList)
      (sendMessageFrame ( "#chan".toList)
        (mkError ( "Haven't seen bob yet".toList))) = true :=
  C8_seen_miss trivialHandlers (initialState 0) 5 ( "#chan".toList)
    ( "alice".toList) (by decide) (by decide)

/- ── Transition discards the rest of the batch (C10) ────────────────── -/

theorem uptoMarker_append (L1 L2 : List (List Char))
    (h : L1.any markerHit = true) :
    uptoMarker (L1 ++ L2) = uptoMarker L1 := by
  induction L1 with
  | nil => exact absurd h (by simp)
  | cons l ls ih =>
    by_cases hm : markerHit l
    · rw [List.cons_append]
      unfold uptoMarker
      rw [if_pos hm, if_pos hm]
    · rw [Bool.not_eq_true] at hm
      rw [List.any_cons, hm, Bool.false_or] at h
      rw [List.cons_append]
      unfold uptoMarker
      rw [if_neg (by rw [hm]; exact Bool.false_ne_true),
        if_neg (by rw [hm]; exact Bool.false_ne_true), ih h]

theorem handshakeStep_append_marker (channels L1 L2 : List (List Char))
    (h : (handshakeStep channels L1).2 = true) :
    handshakeStep channels (L1 ++ L2) = handshakeStep channels L1 := by
  have hany : L1.any markerHit = true := by
    rw [handshakeStep_characterization] at h
    exact h
  rw [handshakeStep_characterization, handshakeStep_characterization,
    uptoMarker_append L1 L2 hany, List.any_append, hany]
  rfl

/-- C10: when the marker line is found among the complete lines of a
handshake batch, the `break` abandons the rest of the batch and the code
resets the carry buffer before the steady-state loop, so appending any
junk (further complete lines and/or a trailing fragment) to that chunk
changes nothing: the whole session output — handshake frames and the
entire Ready phase on the remaining chunks — is identical with or
without the junk; it is never processed. -/
theorem C10_transition_discards_batch_rest (cfg : Config) (H : Handlers)
    (ts : List Int) (start : Int) (buf ch junk : List Char)
    (rest : List (List Char))
    (h : (handshakeStep cfg.channels (splitCRLF (buf ++ ch)).1).2 = true) :
    botRun cfg H ts start buf ((ch ++ junk) :: rest) =
      botRun cfg H ts start buf (ch :: rest) := by
  have hsplit : splitCRLF (buf ++ (ch ++ junk)) =
      ((splitCRLF (buf ++ ch)).1 ++
        (splitCRLF ((splitCRLF (buf ++ ch)).2 ++ junk)).1,
       (splitCRLF ((splitCRLF (buf ++ ch)).2 ++ junk)).2) := by
    rw [← List.append_assoc]
    exact splitCRLF_append (buf ++ ch) junk
  have h1 : handshakePhase cfg.channels buf ((ch ++ junk) :: rest) =
      ((handshakeStep cfg.channels (splitCRLF (buf ++ ch)).1).1, true, rest) := by
    unfold handshakePhase
    dsimp only
    rw [hsplit]
    dsimp only
    rw [handshakeStep_append_marker cfg.channels _ _ h]
    rw [if_pos h]
  have h2 : handshakePhase cfg.channels buf (ch :: rest) =
      ((handshakeStep cfg.channels (splitCRLF (buf ++ ch)).1).1, true, rest) := by
    unfold handshakePhase
    dsimp only
    rw [if_pos h]
  unfold botRun
  rw [h1, h2]

/-- C10 witness: a chunk whose marker line is followed (in the same
chunk) by a complete command line and a trailing fragment produces
exactly the same session output as the chunk cut right after the marker
line. -/
theorem C10_transition_discards_batch_rest_witness :
    botRun ({ nickname := "le0".toList, channels := [ "#d0mer".toList],
              password := none, pfx := "%".toList }) trivialHandlers [9] 0 []
      [( ":srv 376 le0 :end\r\n".toList ++
         ":a!u@h PRIVMSG #d0mer :%ping\r\nFRAG".toList),
       ":b!u@h PRIVMSG #d0mer :hi\r\n".toList] =
    botRun ({ nickname := "le0".toList, channels := [ "#d0mer".toList],
              password := none, pfx := "%".toList }) trivialHandlers [9] 0 []
      [ ":srv 376 le0 :end\r\n".toList,
        ":b!u@h PRIVMSG #d0mer :hi\r\n".toList] :=
  C10_transition_discards_batch_rest
    ({ nickname := "le0".toList, channels := [ "#d0mer".toList],
       password := none, pfx := "%".toList }) trivialHandlers [9] 0 []
    ( ":srv 376 le0 :end\r\n".toList)
    ( ":a!u@h PRIVMSG #d0mer :%ping\r\nFRAG".toList)
    [ ":b!u@h PRIVMSG #d0mer :hi\r\n".toList] (by decide)

end Le0
